import Mathlib

/-! Shallow embedding of the workout-logging core (`useWorkoutLogger`), the
message-board post handler and the exercise-records aggregation of the
fitness-tracking repository, together with proofs of the specification
claims about them.  Numeric fields are modelled as `Int` (resp. `Option Int`
for nullable/optional fields), row identifiers as `Nat`, and the hosted
record store as an explicit table state threaded through each operation. -/

/-- A time value as the source allows it: `string | number | null`. -/
abbrev TimeVal := Option (Sum String Int)

/-- One performed set (`LoggedSet` in the source): an optional persisted
identifier plus the numeric performance fields. -/
structure LoggedSet where
  id : Option Nat
  weight : Option Int
  reps : Int
  distance : Option Int
  time : TimeVal
  calories : Option Int
deriving DecidableEq

/-- Grouping of logged sets under one exercise identity (`ExerciseLog`). -/
structure ExerciseLog where
  exercise_id : String
  sets : List LoggedSet
deriving DecidableEq

/-- The nested exercise object carried by a workout exercise; only its
`name` is consulted by the scoring code. -/
structure ExerciseRef where
  name : String
deriving DecidableEq

/-- One exercise inside a workout template, with its default targets. -/
structure WorkoutExercise where
  exercise_id : String
  sets : Nat
  weight : Option Int
  reps : Int
  distance : Option Int
  time : TimeVal
  calories : Option Int
  exercise : ExerciseRef
deriving DecidableEq

/-- A workout template; `workout_exercises` may be absent altogether. -/
structure Workout where
  id : Nat
  type : Option String
  workout_exercises : Option (List WorkoutExercise)
deriving DecidableEq

/-- The signed-in user as the auth context provides it. -/
structure User where
  id : String
deriving DecidableEq

/-- Embedding of the `Run` branch of `calculateTotalScore`:
`log.sets.reduce((setTotal, set) => setTotal + (set.distance || 0), 0)`. -/
def runSetScore (sets : List LoggedSet) : Int :=
  sets.foldl (fun setTotal s => setTotal + s.distance.getD 0) 0

/-- Embedding of the `Assault Bike` branch of `calculateTotalScore`:
`log.sets.reduce((setTotal, set) => setTotal + (set.calories || 0), 0)`. -/
def bikeSetScore (sets : List LoggedSet) : Int :=
  sets.foldl (fun setTotal s => setTotal + s.calories.getD 0) 0

/-- Embedding of the `weight training` branch of `calculateTotalScore`:
`log.sets.reduce((setTotal, set) => setTotal + ((set.weight || 0) * set.reps), 0)`. -/
def weightTrainingSetScore (sets : List LoggedSet) : Int :=
  sets.foldl (fun setTotal s => setTotal + s.weight.getD 0 * s.reps) 0

/-- Embedding of the default branch of `calculateTotalScore`, written in the
source as a separate (textually identical) reduce. -/
def defaultSetScore (sets : List LoggedSet) : Int :=
  sets.foldl (fun setTotal s => setTotal + s.weight.getD 0 * s.reps) 0

/-- Embedding of `calculateTotalScore`: a reduce over the logs with index,
pairing the nth log with `workout.workout_exercises?.[index]` and selecting
a branch by exercise name, else by workout type. -/
def calculateTotalScore (logs : List ExerciseLog) (workout : Workout) : Int :=
  logs.enum.foldl (fun total p =>
    match workout.workout_exercises.bind (fun l => l.get? p.1) with
    | none => total
    | some exercise =>
      if exercise.exercise.name = "Run" then total + runSetScore p.2.sets
      else if exercise.exercise.name = "Assault Bike" then total + bikeSetScore p.2.sets
      else if workout.type = some "weight training" then total + weightTrainingSetScore p.2.sets
      else total + defaultSetScore p.2.sets) 0

/-- Per-log contribution exactly as the claim words it: distance sum for
`Run`, calorie sum for `Assault Bike`, weight-times-reps sum otherwise, and
zero when no workout exercise exists at the log's position. -/
def claimContribution (workout : Workout) (i : Nat) (log : ExerciseLog) : Int :=
  match workout.workout_exercises.bind (fun l => l.get? i) with
  | none => 0
  | some exercise =>
    if exercise.exercise.name = "Run" then (log.sets.map (fun s => s.distance.getD 0)).sum
    else if exercise.exercise.name = "Assault Bike" then (log.sets.map (fun s => s.calories.getD 0)).sum
    else (log.sets.map (fun s => s.weight.getD 0 * s.reps)).sum

/-- Total score as the claim words it: sum over the logs of the positional
per-log contributions. -/
def claimTotalScore (logs : List ExerciseLog) (workout : Workout) : Int :=
  (logs.enum.map (fun p => claimContribution workout p.1 p.2)).sum

lemma foldl_add_eq_sum {α : Type} (f : α → Int) (l : List α) (t : Int) :
    l.foldl (fun acc a => acc + f a) t = t + (l.map f).sum := by
  induction l generalizing t with
  | nil => simp
  | cons x xs ih => simp [ih, add_assoc]

lemma enumFrom_foldl_contribution (workout : Workout) (l : List ExerciseLog)
    (n : Nat) (t : Int) :
    (List.enumFrom n l).foldl (fun total p =>
      match workout.workout_exercises.bind (fun we => we.get? p.1) with
      | none => total
      | some exercise =>
        if exercise.exercise.name = "Run" then total + runSetScore p.2.sets
        else if exercise.exercise.name = "Assault Bike" then total + bikeSetScore p.2.sets
        else if workout.type = some "weight training" then total + weightTrainingSetScore p.2.sets
        else total + defaultSetScore p.2.sets) t
    = t + ((List.enumFrom n l).map (fun p => claimContribution workout p.1 p.2)).sum := by
  induction l generalizing n t with
  | nil => simp
  | cons x xs ih =>
    have hbranch : ∀ total : Int,
        (match workout.workout_exercises.bind (fun we => we.get? n) with
        | none => total
        | some exercise =>
          if exercise.exercise.name = "Run" then total + runSetScore x.sets
          else if exercise.exercise.name = "Assault Bike" then total + bikeSetScore x.sets
          else if workout.type = some "weight training" then total + weightTrainingSetScore x.sets
          else total + defaultSetScore x.sets)
        = total + claimContribution workout n x := by
      intro total
      unfold claimContribution
      cases workout.workout_exercises.bind (fun we => we.get? n) with
      | none => simp
      | some exercise =>
        by_cases hr : exercise.exercise.name = "Run"
        · simp [hr, runSetScore, foldl_add_eq_sum]
        · by_cases hb : exercise.exercise.name = "Assault Bike"
          · simp [hr, hb, bikeSetScore, foldl_add_eq_sum]
          · by_cases hw : workout.type = some "weight training"
            · simp [hr, hb, hw, weightTrainingSetScore, foldl_add_eq_sum]
            · simp [hr, hb, hw, defaultSetScore, foldl_add_eq_sum]
    simp only [List.enumFrom, List.foldl_cons, List.map_cons, List.sum_cons]
    rw [hbranch, ih]
    ring

/-- A logged set carrying only the given distance. -/
def distanceSet (d : Int) : LoggedSet :=
  { id := none, weight := none, reps := 0, distance := some d, time := none, calories := none }

/-- A logged set carrying the given weight and reps. -/
def weightSet (w r : Int) : LoggedSet :=
  { id := none, weight := some w, reps := r, distance := none, time := none, calories := none }

/-- The `Run` workout exercise of the run scenario. -/
def runScenarioExercise : WorkoutExercise :=
  { exercise_id := "run", sets := 2, weight := none, reps := 0, distance := none,
    time := none, calories := none, exercise := { name := "Run" } }

/-- Run scenario of the claim: one `Run` exercise, two sets of distance 400
and 600. -/
def runScenarioWorkout : Workout :=
  { id := 1, type := none, workout_exercises := some [runScenarioExercise] }

/-- Logs of the run scenario. -/
def runScenarioLogs : List ExerciseLog :=
  [{ exercise_id := "run", sets := [distanceSet 400, distanceSet 600] }]

/-- The `Bench Press` workout exercise of the weight-training scenario. -/
def wtScenarioExercise : WorkoutExercise :=
  { exercise_id := "bp", sets := 2, weight := some 100, reps := 5, distance := none,
    time := none, calories := none, exercise := { name := "Bench Press" } }

/-- Weight-training scenario of the claim: one `Bench Press` exercise in a
`weight training` workout, sets 100x5 and 100x3. -/
def wtScenarioWorkout : Workout :=
  { id := 2, type := some "weight training", workout_exercises := some [wtScenarioExercise] }

/-- Logs of the weight-training scenario. -/
def wtScenarioLogs : List ExerciseLog :=
  [{ exercise_id := "bp", sets := [weightSet 100 5, weightSet 100 3] }]

/-- C1: `calculateTotalScore` is the sum over logs of the positional per-log
contributions (distance sum for `Run`, calorie sum for `Assault Bike`,
weight-times-reps sum otherwise, zero at positions with no exercise), and on
the two scenario inputs it returns 1000 resp. 800. -/
theorem calculateTotalScore_spec :
    (∀ (logs : List ExerciseLog) (workout : Workout),
      calculateTotalScore logs workout = claimTotalScore logs workout)
    ∧ calculateTotalScore runScenarioLogs runScenarioWorkout = 1000
    ∧ calculateTotalScore wtScenarioLogs wtScenarioWorkout = 800 := by
  refine ⟨fun logs workout => ?_, by decide, by decide⟩
  unfold calculateTotalScore claimTotalScore List.enum
  rw [enumFrom_foldl_contribution]
  simp

/-- C5: the default branch of `calculateTotalScore` and its weight-training
branch are equal as functions on the logged sets. -/
theorem defaultSetScore_eq_weightTrainingSetScore :
    defaultSetScore = weightTrainingSetScore := rfl

/-- A persisted `workout_logs` row. -/
structure WorkoutLogRow where
  id : Nat
  user_id : String
  workout_id : Nat
  notes : String
  score : Int
  total : Int
  completed_at : Nat
deriving DecidableEq

/-- A persisted `exercise_scores` row. -/
structure ScoreRow where
  id : Nat
  user_id : String
  workout_log_id : Nat
  exercise_id : String
  weight : Option Int
  reps : Int
  distance : Option Int
  time : TimeVal
  calories : Option Int
deriving DecidableEq

/-- An `exercise_scores` row as `updateWorkoutLog` builds it for the upsert:
its `id` is absent for a fresh row and present for an update target. -/
structure ScoreRowInput where
  id : Option Nat
  user_id : String
  workout_log_id : Nat
  exercise_id : String
  weight : Option Int
  reps : Int
  distance : Option Int
  time : TimeVal
  calories : Option Int
deriving DecidableEq

/-- The identifier-free fields of an `exercise_scores` row. -/
structure ScorePayload where
  user_id : String
  workout_log_id : Nat
  exercise_id : String
  weight : Option Int
  reps : Int
  distance : Option Int
  time : TimeVal
  calories : Option Int
deriving DecidableEq

/-- Forget a persisted row's identifier. -/
def ScoreRow.payload (r : ScoreRow) : ScorePayload :=
  { user_id := r.user_id, workout_log_id := r.workout_log_id, exercise_id := r.exercise_id,
    weight := r.weight, reps := r.reps, distance := r.distance, time := r.time,
    calories := r.calories }

/-- Forget an upsert input row's identifier. -/
def ScoreRowInput.payload (r : ScoreRowInput) : ScorePayload :=
  { user_id := r.user_id, workout_log_id := r.workout_log_id, exercise_id := r.exercise_id,
    weight := r.weight, reps := r.reps, distance := r.distance, time := r.time,
    calories := r.calories }

/-- The row the store persists when an upsert input lands at identifier `i`. -/
def ScoreRowInput.applyAt (r : ScoreRowInput) (i : Nat) : ScoreRow :=
  { id := i, user_id := r.user_id, workout_log_id := r.workout_log_id,
    exercise_id := r.exercise_id, weight := r.weight, reps := r.reps,
    distance := r.distance, time := r.time, calories := r.calories }

/-- The two tables this core writes. -/
structure DB where
  workout_logs : List WorkoutLogRow
  exercise_scores : List ScoreRow
deriving DecidableEq

/-- The environment of one run: a fault schedule for the store calls (the
nth call made fails with the scheduled message) and the current time. -/
structure Env where
  faults : Nat → Option String
  now : Nat

/-- An environment in which every store call succeeds. -/
def noFaultEnv (now : Nat) : Env :=
  { faults := fun _ => none, now := now }

/-- An environment in which exactly the `k`-th store call fails with `e`. -/
def failAtEnv (k : Nat) (e : String) (now : Nat) : Env :=
  { faults := fun n => if n = k then some e else none, now := now }

/-- The hook's state: the store, the number of store calls issued so far and
the `logging` flag. -/
structure HookState where
  db : DB
  callNo : Nat
  logging : Bool
deriving DecidableEq

/-- Issue one store call: consult the fault schedule and advance the call
counter. -/
def storeCall (env : Env) (st : HookState) : Option String × HookState :=
  (env.faults st.callNo, { st with callNo := st.callNo + 1 })

/-- Maximum of a list of identifiers, zero when empty. -/
def listMax (l : List Nat) : Nat := l.foldr max 0

/-- The first identifier the server hands out for fresh rows: larger than
every identifier already in the table and every identifier in the batch. -/
def freshScoreIdBase (table : List ScoreRow) (carried : List Nat) : Nat :=
  listMax (table.map (fun r => r.id) ++ carried) + 1

/-- Build a persisted score row from a fresh identifier and id-free fields. -/
def mkScoreRow (i : Nat) (p : ScorePayload) : ScoreRow :=
  { id := i, user_id := p.user_id, workout_log_id := p.workout_log_id,
    exercise_id := p.exercise_id, weight := p.weight, reps := p.reps,
    distance := p.distance, time := p.time, calories := p.calories }

/-- Insert a batch of id-free rows, assigning consecutive fresh identifiers. -/
def insertPayloads (base : Nat) : List ScorePayload → List ScoreRow
  | [] => []
  | p :: rest => mkScoreRow base p :: insertPayloads (base + 1) rest

/-- One row of the `upsert(..., onConflict: 'id')` batch: an input carrying
an identifier present in the table updates that row in place; one carrying
an identifier absent from the table is inserted under it; one without an
identifier is inserted under the next server-assigned fresh identifier. -/
def upsertScoreRow (table : List ScoreRow) (r : ScoreRowInput) (c : Nat) :
    List ScoreRow × Nat :=
  match r.id with
  | some i =>
    if i ∈ table.map (fun row => row.id) then
      (table.map (fun row => if row.id = i then r.applyAt i else row), c)
    else
      (table ++ [r.applyAt i], c)
  | none => (table ++ [r.applyAt c], c + 1)

/-- Apply a whole upsert batch in order. -/
def upsertAll : List ScoreRow → List ScoreRowInput → Nat → List ScoreRow
  | table, [], _ => table
  | table, r :: rest, c =>
    upsertAll (upsertScoreRow table r c).1 rest (upsertScoreRow table r c).2

/-- The rows `logWorkout` builds for its `exercise_scores` insert: one per
logged set across all logs, each referencing workout log `wlId`. -/
def logScorePayloads (u : User) (wlId : Nat) (logs : List ExerciseLog) :
    List ScorePayload :=
  logs.flatMap (fun log => log.sets.map (fun s =>
    { user_id := u.id, workout_log_id := wlId, exercise_id := log.exercise_id,
      weight := s.weight, reps := s.reps, distance := s.distance,
      time := s.time, calories := s.calories }))

/-- The rows `updateWorkoutLog` prepares for its upsert: one per logged set,
carrying the set's persisted identifier when it has one. -/
def updateScoreInputs (u : User) (wlId : Nat) (logs : List ExerciseLog) :
    List ScoreRowInput :=
  logs.flatMap (fun log => log.sets.map (fun s =>
    { id := s.id, user_id := u.id, workout_log_id := wlId,
      exercise_id := log.exercise_id, weight := s.weight, reps := s.reps,
      distance := s.distance, time := s.time, calories := s.calories }))

/-- The exercise-score rows persisted for one workout log. -/
def wlRows (table : List ScoreRow) (wlId : Nat) : List ScoreRow :=
  table.filter (fun r => decide (r.workout_log_id = wlId))

/-- The existing score identifiers `updateWorkoutLog` fetches for the
workout log (a `Set` in the source, hence deduplicated). -/
def existingScoreIdsOf (table : List ScoreRow) (wlId : Nat) : List Nat :=
  ((wlRows table wlId).map (fun r => r.id)).dedup

/-- The identifiers carried by the upsert inputs, as the source collects
them (`filter(score => score.id).map(score => score.id)`). -/
def currentScoreIdsOf (inputs : List ScoreRowInput) : List Nat :=
  (inputs.filter (fun r => r.id.isSome)).filterMap (fun r => r.id)

/-- Embedding of `startWorkoutLogging`'s default set for one exercise:
weight defaults to `exercise.weight || 0`, the other targets are copied. -/
def defaultLoggedSet (exercise : WorkoutExercise) : LoggedSet :=
  { id := none, weight := some (exercise.weight.getD 0), reps := exercise.reps,
    distance := exercise.distance, time := exercise.time,
    calories := exercise.calories }

/-- Embedding of `startWorkoutLogging`: requires a signed-in user, raises
the `logging` flag, and returns one exercise log per workout exercise with
`exercise.sets` copies of the default set. -/
def startWorkoutLogging (user : Option User) (workout : Workout)
    (st : HookState) : Except String (List ExerciseLog) × HookState :=
  match user with
  | none => (Except.error "User must be logged in to start a workout", st)
  | some _ =>
    let st1 := { st with logging := true }
    let initialLogs : List ExerciseLog :=
      match workout.workout_exercises with
      | some exercises => exercises.map (fun exercise =>
          { exercise_id := exercise.exercise_id,
            sets := List.replicate exercise.sets (defaultLoggedSet exercise) })
      | none => []
    (Except.ok initialLogs, st1)

/-- Embedding of `logWorkout`: insert one `workout_logs` row carrying the
computed score in both `score` and `total`, then insert one
`exercise_scores` row per logged set referencing it.  A store fault aborts
the remaining steps and propagates; the `finally` clears `logging` on every
path through the `try`, while the synchronous auth check precedes it. -/
def logWorkout (env : Env) (user : Option User) (workout : Workout)
    (logs : List ExerciseLog) (notes : String) (st : HookState) :
    Except String WorkoutLogRow × HookState :=
  match user with
  | none => (Except.error "User must be logged in to log a workout", st)
  | some u =>
    let totalScore := calculateTotalScore logs workout
    let c1 := storeCall env st
    match c1.1 with
    | some e => (Except.error e, { c1.2 with logging := false })
    | none =>
      let st1 := c1.2
      let newId := listMax (st1.db.workout_logs.map (fun r => r.id)) + 1
      let workoutLog : WorkoutLogRow :=
        { id := newId, user_id := u.id, workout_id := workout.id, notes := notes,
          score := totalScore, total := totalScore, completed_at := env.now }
      let st2 :=
        { st1 with db := { st1.db with workout_logs := st1.db.workout_logs ++ [workoutLog] } }
      let c2 := storeCall env st2
      match c2.1 with
      | some e => (Except.error e, { c2.2 with logging := false })
      | none =>
        let st3 := c2.2
        let base := freshScoreIdBase st3.db.exercise_scores []
        let newRows := insertPayloads base (logScorePayloads u newId logs)
        (Except.ok workoutLog,
          { st3 with
            db := { st3.db with exercise_scores := st3.db.exercise_scores ++ newRows },
            logging := false })

/-- Embedding of `updateWorkoutLog`: update the `workout_logs` row scoped by
both log and user identifier (erroring like `.single()` unless exactly one
row matches), fetch the existing score identifiers, delete exactly the stale
ones, then upsert the full batch by identifier (erroring like the store when
the batch carries a duplicate identifier).  A store fault aborts the
remaining steps and propagates; the `finally` clears `logging` on every path
through the `try`, while the synchronous auth check precedes it. -/
def updateWorkoutLog (env : Env) (user : Option User) (workoutLogId : Nat)
    (workout : Workout) (logs : List ExerciseLog) (notes : String)
    (st : HookState) : Except String WorkoutLogRow × HookState :=
  match user with
  | none => (Except.error "User must be logged in to update a workout", st)
  | some u =>
    let totalScore := calculateTotalScore logs workout
    let c1 := storeCall env st
    match c1.1 with
    | some e => (Except.error e, { c1.2 with logging := false })
    | none =>
      let st1 := c1.2
      let updatedLogs := st1.db.workout_logs.map (fun r =>
        if r.id = workoutLogId ∧ r.user_id = u.id then
          { r with notes := notes, score := totalScore, total := totalScore, completed_at := env.now }
        else r)
      let st2 := { st1 with db := { st1.db with workout_logs := updatedLogs } }
      match updatedLogs.filter (fun r => decide (r.id = workoutLogId ∧ r.user_id = u.id)) with
      | [workoutLog] =>
        let c2 := storeCall env st2
        match c2.1 with
        | some e => (Except.error e, { c2.2 with logging := false })
        | none =>
          let st3 := c2.2
          let existingScoreIds := existingScoreIdsOf st3.db.exercise_scores workoutLogId
          let exerciseScores := updateScoreInputs u workoutLogId logs
          let scoreIdsToDelete :=
            existingScoreIds.filter (fun i => decide (i ∉ currentScoreIdsOf exerciseScores))
          let deleteStep : Except String Unit × HookState :=
            if scoreIdsToDelete.length > 0 then
              let c3 := storeCall env st3
              match c3.1 with
              | some e => (Except.error e, c3.2)
              | none =>
                (Except.ok (),
                  { c3.2 with db := { c3.2.db with
                      exercise_scores := c3.2.db.exercise_scores.filter
                        (fun r => decide (r.id ∉ scoreIdsToDelete)) } })
            else (Except.ok (), st3)
          match deleteStep with
          | (Except.error e, stD) => (Except.error e, { stD with logging := false })
          | (Except.ok _, st4) =>
            let c4 := storeCall env st4
            match c4.1 with
            | some e => (Except.error e, { c4.2 with logging := false })
            | none =>
              let st5 := c4.2
              let carried := exerciseScores.filterMap (fun r => r.id)
              if carried.Nodup then
                (Except.ok workoutLog,
                  { st5 with
                    db := { st5.db with
                      exercise_scores := upsertAll st5.db.exercise_scores exerciseScores
                        (freshScoreIdBase st5.db.exercise_scores carried) },
                    logging := false })
              else
                (Except.error "ON CONFLICT DO UPDATE command cannot affect row a second time",
                  { st5 with logging := false })
      | _ =>
        (Except.error "JSON object requested, multiple (or no) rows returned",
          { st2 with logging := false })

/-- A persisted `messages` row (the fields the post handler writes). -/
structure MessageRow where
  id : Nat
  content : String
  profile_id : String
deriving DecidableEq

/-- The message-board page's state: the `messages` table, the rendered
list, the compose box, the error banner and the store-call counter. -/
structure MBState where
  dbMessages : List MessageRow
  messages : List MessageRow
  newMessage : String
  error : Option String
  callNo : Nat
deriving DecidableEq

/-- Embedding of `handlePostMessage`: with no signed-in user, or a blank
compose box, it returns without doing anything; otherwise it inserts the
message, prepends the returned row and clears the box, and on a store fault
it sets the error banner instead. -/
def handlePostMessage (env : Env) (user : Option User) (st : MBState) : MBState :=
  match user with
  | none => st
  | some u =>
    if st.newMessage.trim = "" then st
    else
      match env.faults st.callNo with
      | some _ =>
        { st with callNo := st.callNo + 1,
                  error := some "Failed to post message. Please try again later." }
      | none =>
        let newRow : MessageRow :=
          { id := listMax (st.dbMessages.map (fun r => r.id)) + 1,
            content := st.newMessage, profile_id := u.id }
        { st with callNo := st.callNo + 1, dbMessages := st.dbMessages ++ [newRow],
                  messages := newRow :: st.messages, newMessage := "" }

/-- A message-board state with a non-blank compose box and no error. -/
def mbSample : MBState :=
  { dbMessages := [], messages := [], newMessage := "hello", error := none, callNo := 0 }

/-- C8 counterexample: posting a message with no signed-in user raises no
authentication error and issues no store call - the handler returns its
state unchanged (error banner still `none`, call counter still 0). -/
theorem handlePostMessage_no_auth_error :
    handlePostMessage (noFaultEnv 0) none mbSample = mbSample
    ∧ mbSample.error = none ∧ mbSample.callNo = 0 :=
  ⟨rfl, rfl, rfl⟩

/-- C8 amended: `logWorkout` and `updateWorkoutLog` raise the
authentication-required error synchronously, before any store call and
without touching any state, when invoked with no signed-in user;
`handlePostMessage` instead returns silently, equally before any store
call. -/
theorem auth_required_sync (env : Env) (workout : Workout) (wlId : Nat)
    (logs : List ExerciseLog) (notes : String) (st : HookState) (stMB : MBState) :
    logWorkout env none workout logs notes st =
      (Except.error "User must be logged in to log a workout", st)
    ∧ updateWorkoutLog env none wlId workout logs notes st =
      (Except.error "User must be logged in to update a workout", st)
    ∧ handlePostMessage env none stMB = stMB :=
  ⟨rfl, rfl, rfl⟩

/-- C9: with a signed-in user, `startWorkoutLogging` returns one exercise
log per entry of the workout's exercise sequence, in order, each carrying
that entry's `exercise_id` and `sets` copies of a default set whose weight
is the entry's default weight or zero (null and zero both yield zero) and
whose reps, distance, time and calories are copied; with no exercise
sequence it returns the empty list. -/
theorem startWorkoutLogging_spec (u : User) (workout : Workout) (st : HookState) :
    startWorkoutLogging (some u) workout st =
      (Except.ok ((workout.workout_exercises.getD []).map (fun e =>
        { exercise_id := e.exercise_id,
          sets := List.replicate e.sets
            { id := none, weight := some (e.weight.getD 0), reps := e.reps,
              distance := e.distance, time := e.time, calories := e.calories } })),
        { st with logging := true }) := by
  cases h : workout.workout_exercises <;>
    simp [startWorkoutLogging, h, defaultLoggedSet]

/-- C6: on success `logWorkout` appends exactly one `workout_logs` row
carrying the computed score duplicated into `score` and `total`, the notes
and the completion timestamp, plus one `exercise_scores` row per logged set
referencing it; when the `exercise_scores` insert fails, the error
propagates and the already-inserted `workout_logs` row is not rolled back
(and no score rows are inserted). -/
theorem logWorkout_persists (u : User) (workout : Workout)
    (logs : List ExerciseLog) (notes : String) (st : HookState) (now : Nat)
    (e : String) :
    (logWorkout (noFaultEnv now) (some u) workout logs notes st).1 =
      Except.ok
        { id := listMax (st.db.workout_logs.map (fun r => r.id)) + 1, user_id := u.id,
          workout_id := workout.id, notes := notes,
          score := calculateTotalScore logs workout,
          total := calculateTotalScore logs workout, completed_at := now }
    ∧ (logWorkout (noFaultEnv now) (some u) workout logs notes st).2.db.workout_logs =
      st.db.workout_logs ++
        [{ id := listMax (st.db.workout_logs.map (fun r => r.id)) + 1, user_id := u.id,
           workout_id := workout.id, notes := notes,
           score := calculateTotalScore logs workout,
           total := calculateTotalScore logs workout, completed_at := now }]
    ∧ (logWorkout (noFaultEnv now) (some u) workout logs notes st).2.db.exercise_scores =
      st.db.exercise_scores ++
        insertPayloads (freshScoreIdBase st.db.exercise_scores [])
          (logScorePayloads u (listMax (st.db.workout_logs.map (fun r => r.id)) + 1) logs)
    ∧ (logWorkout (failAtEnv (st.callNo + 1) e now) (some u) workout logs notes st).1 =
      Except.error e
    ∧ (logWorkout (failAtEnv (st.callNo + 1) e now) (some u) workout logs notes st).2.db.workout_logs =
      st.db.workout_logs ++
        [{ id := listMax (st.db.workout_logs.map (fun r => r.id)) + 1, user_id := u.id,
           workout_id := workout.id, notes := notes,
           score := calculateTotalScore logs workout,
           total := calculateTotalScore logs workout, completed_at := now }]
    ∧ (logWorkout (failAtEnv (st.callNo + 1) e now) (some u) workout logs notes st).2.db.exercise_scores =
      st.db.exercise_scores := by
  have hne : st.callNo ≠ st.callNo + 1 := Nat.ne_of_lt (Nat.lt_succ_self _)
  refine ⟨?_, ?_, ?_, ?_, ?_, ?_⟩ <;>
    simp [logWorkout, storeCall, noFaultEnv, failAtEnv, hne]

/-- An empty store. -/
def emptyDB : DB := { workout_logs := [], exercise_scores := [] }

/-- A hook state whose `logging` flag is raised, as `startWorkoutLogging`
leaves it before `logWorkout` runs. -/
def loggingSt : HookState := { db := emptyDB, callNo := 0, logging := true }

/-- C7 counterexample: invoked without a signed-in user while the `logging`
flag is raised, `logWorkout` returns (with the synchronous auth error,
raised before the `try`/`finally`) and the flag is still raised afterwards -
so the flag is not false after the call on every outcome. -/
theorem logging_flag_not_always_reset :
    (logWorkout (noFaultEnv 0) none runScenarioWorkout runScenarioLogs "" loggingSt).2.logging = true
    ∧ (logWorkout (noFaultEnv 0) none runScenarioWorkout runScenarioLogs "" loggingSt).1 =
      Except.error "User must be logged in to log a workout" :=
  ⟨rfl, rfl⟩

lemma ScoreRowInput.payload_applyAt (r : ScoreRowInput) (i : Nat) :
    (r.applyAt i).payload = r.payload := rfl

lemma map_eq_self_of_eq {α : Type} (l : List α) (f : α → α)
    (h : ∀ a ∈ l, f a = a) : l.map f = l := by
  rw [List.map_congr_left h]
  simp

lemma update_filter_perm (wlId i : Nat) (r : ScoreRowInput) (carried : List Nat)
    (hwl : r.workout_log_id = wlId) (hni : i ∉ carried) (table : List ScoreRow)
    (hnd : (table.map (fun row => row.id)).Nodup)
    (hmem : i ∈ table.map (fun row => row.id)) :
    (((table.map (fun row => if row.id = i then r.applyAt i else row)).filter
        (fun row => decide (row.workout_log_id = wlId ∧ row.id ∉ carried))).map
      ScoreRow.payload).Perm
      (((table.filter (fun row =>
          decide (row.workout_log_id = wlId ∧ row.id ∉ i :: carried))).map
        ScoreRow.payload) ++ [r.payload]) := by
  induction table with
  | nil => simp at hmem
  | cons hd tl ih =>
    have hnd2 : (hd.id :: tl.map (fun row => row.id)).Nodup := by
      simpa only [List.map_cons] using hnd
    have hhd_not : hd.id ∉ tl.map (fun row => row.id) := (List.nodup_cons.mp hnd2).1
    have hndtl : (tl.map (fun row => row.id)).Nodup := (List.nodup_cons.mp hnd2).2
    have hmem2 : i ∈ hd.id :: tl.map (fun row => row.id) := by
      simpa only [List.map_cons] using hmem
    by_cases hh : hd.id = i
    · have htl_fix : tl.map (fun row => if row.id = i then r.applyAt i else row) = tl := by
        apply map_eq_self_of_eq
        intro a ha
        have hai : a.id ≠ i := by
          intro hai
          exact hhd_not (by
            rw [hh, ← hai]
            exact List.mem_map_of_mem _ ha)
        simp [hai]
      have hmap : (hd :: tl).map (fun row => if row.id = i then r.applyAt i else row) =
          r.applyAt i :: tl := by
        rw [List.map_cons, htl_fix, if_pos hh]
      have htl_same : tl.filter (fun row =>
            decide (row.workout_log_id = wlId ∧ row.id ∉ i :: carried)) =
          tl.filter (fun row => decide (row.workout_log_id = wlId ∧ row.id ∉ carried)) := by
        apply List.filter_congr
        intro a ha
        have hai : a.id ≠ i := by
          intro hai
          exact hhd_not (by
            rw [hh, ← hai]
            exact List.mem_map_of_mem _ ha)
        simp [hai]
      have happly : (decide ((r.applyAt i).workout_log_id = wlId ∧
          (r.applyAt i).id ∉ carried)) = true := by
        simp only [decide_eq_true_eq, ScoreRowInput.applyAt]
        exact ⟨hwl, hni⟩
      have hhd_excl : ¬ ((decide (hd.workout_log_id = wlId ∧ hd.id ∉ i :: carried)) = true) := by
        simp only [decide_eq_true_eq]
        rintro ⟨-, habs⟩
        exact habs (by simp [hh])
      rw [hmap]
      simp only [List.filter_cons]
      rw [if_pos happly, if_neg hhd_excl, htl_same, List.map_cons,
        ScoreRowInput.payload_applyAt]
      exact (List.perm_append_singleton _ _).symm
    · have hmem' : i ∈ tl.map (fun row => row.id) := by
        rcases List.mem_cons.mp hmem2 with h1 | h1
        · exact absurd h1.symm hh
        · exact h1
      have hstep := ih hndtl hmem'
      have hmap : (hd :: tl).map (fun row => if row.id = i then r.applyAt i else row) =
          hd :: tl.map (fun row => if row.id = i then r.applyAt i else row) := by
        rw [List.map_cons, if_neg hh]
      by_cases hp : hd.workout_log_id = wlId ∧ hd.id ∉ carried
      · have hp' : (decide (hd.workout_log_id = wlId ∧ hd.id ∉ i :: carried)) = true := by
          simp only [decide_eq_true_eq]
          refine ⟨hp.1, ?_⟩
          intro habs
          rcases List.mem_cons.mp habs with h1 | h1
          · exact hh h1
          · exact hp.2 h1
        have hpb : (decide (hd.workout_log_id = wlId ∧ hd.id ∉ carried)) = true := by
          simpa only [decide_eq_true_eq] using hp
        rw [hmap]
        simp only [List.filter_cons]
        rw [if_pos hpb, if_pos hp', List.map_cons, List.map_cons, List.cons_append]
        exact hstep.cons hd.payload
      · have hp' : ¬ ((decide (hd.workout_log_id = wlId ∧ hd.id ∉ i :: carried)) = true) := by
          simp only [decide_eq_true_eq]
          rintro ⟨h1, h2⟩
          refine hp ⟨h1, ?_⟩
          intro habs
          exact h2 (List.mem_cons_of_mem _ habs)
        have hpb : ¬ ((decide (hd.workout_log_id = wlId ∧ hd.id ∉ carried)) = true) := by
          simpa only [decide_eq_true_eq] using hp
        rw [hmap]
        simp only [List.filter_cons]
        rw [if_neg hpb, if_neg hp']
        exact hstep

lemma upsertAll_wlRows_perm (wlId : Nat) (batch : List ScoreRowInput) :
    ∀ (table : List ScoreRow) (c : Nat),
      (table.map (fun row => row.id)).Nodup →
      (batch.filterMap (fun x => x.id)).Nodup →
      (∀ x ∈ batch, x.workout_log_id = wlId) →
      (∀ row ∈ table, row.id < c) →
      (∀ j ∈ batch.filterMap (fun x => x.id), j < c) →
      ((wlRows (upsertAll table batch c) wlId).map ScoreRow.payload).Perm
        (((table.filter (fun row => decide (row.workout_log_id = wlId ∧
            row.id ∉ batch.filterMap (fun x => x.id)))).map ScoreRow.payload)
          ++ batch.map ScoreRowInput.payload) := by
  induction batch with
  | nil =>
    intro table c _ _ _ _ _
    have hcong : table.filter (fun row => decide (row.workout_log_id = wlId ∧
        row.id ∉ (List.filterMap (fun x => x.id) ([] : List ScoreRowInput)))) =
        table.filter (fun row => decide (row.workout_log_id = wlId)) := by
      apply List.filter_congr
      intro a _
      simp
    simp only [upsertAll, List.map_nil, List.append_nil, hcong]
    exact List.Perm.refl _
  | cons r rest ih =>
    intro table c hnd hcarr hwl hbound hcbound
    have hwl_r : r.workout_log_id = wlId := hwl r (List.mem_cons_self r rest)
    have hwl_rest : ∀ x ∈ rest, x.workout_log_id = wlId :=
      fun x hx => hwl x (List.mem_cons_of_mem r hx)
    rcases hid : r.id with _ | i
    · -- fresh row, inserted under the next server identifier c
      have hcarr_eq : (r :: rest).filterMap (fun x => x.id) =
          rest.filterMap (fun x => x.id) := by
        simp [List.filterMap_cons, hid]
      have hstep : upsertAll table (r :: rest) c =
          upsertAll (table ++ [r.applyAt c]) rest (c + 1) := by
        simp [upsertAll, upsertScoreRow, hid]
      have hcarr' : (rest.filterMap (fun x => x.id)).Nodup := by
        rw [← hcarr_eq]
        exact hcarr
      have hnd' : ((table ++ [r.applyAt c]).map (fun row => row.id)).Nodup := by
        rw [List.map_append]
        refine List.Nodup.append hnd (List.nodup_singleton _) ?_
        intro a ha hb
        rcases List.mem_map.mp ha with ⟨row, hrow, rfl⟩
        have hc : row.id = c := by simpa [ScoreRowInput.applyAt] using hb
        exact absurd hc (Nat.ne_of_lt (hbound row hrow))
      have hbound' : ∀ row ∈ table ++ [r.applyAt c], row.id < c + 1 := by
        intro row hrow
        rcases List.mem_append.mp hrow with h1 | h1
        · exact Nat.lt_succ_of_lt (hbound row h1)
        · have : row = r.applyAt c := List.mem_singleton.mp h1
          simp [this, ScoreRowInput.applyAt]
      have hcbound' : ∀ j ∈ rest.filterMap (fun x => x.id), j < c + 1 := by
        intro j hj
        refine Nat.lt_succ_of_lt (hcbound j ?_)
        rw [hcarr_eq]
        exact hj
      have hx_pass : (decide ((r.applyAt c).workout_log_id = wlId ∧
          (r.applyAt c).id ∉ rest.filterMap (fun x => x.id))) = true := by
        simp only [decide_eq_true_eq, ScoreRowInput.applyAt]
        refine ⟨hwl_r, fun habs => ?_⟩
        have := hcbound c (by rw [hcarr_eq]; exact habs)
        exact absurd this (Nat.lt_irrefl c)
      have hfilter_app : (table ++ [r.applyAt c]).filter
          (fun row => decide (row.workout_log_id = wlId ∧
            row.id ∉ rest.filterMap (fun x => x.id))) =
          table.filter (fun row => decide (row.workout_log_id = wlId ∧
            row.id ∉ rest.filterMap (fun x => x.id))) ++ [r.applyAt c] := by
        rw [List.filter_append]
        congr 1
        simp only [List.filter_cons, List.filter_nil]
        rw [if_pos hx_pass]
      rw [hstep]
      refine (ih _ _ hnd' hcarr' hwl_rest hbound' hcbound').trans ?_
      rw [hfilter_app]
      simp only [hcarr_eq, List.map_append, List.map_cons, List.map_nil,
        ScoreRowInput.payload_applyAt, List.append_assoc, List.singleton_append]
      exact List.Perm.refl _
    · -- row carrying identifier i
      have hcarr_eq : (r :: rest).filterMap (fun x => x.id) =
          i :: rest.filterMap (fun x => x.id) := by
        simp [List.filterMap_cons, hid]
      have hcarr2 : (i :: rest.filterMap (fun x => x.id)).Nodup := by
        rw [← hcarr_eq]
        exact hcarr
      have hi_not : i ∉ rest.filterMap (fun x => x.id) := (List.nodup_cons.mp hcarr2).1
      have hcarr' : (rest.filterMap (fun x => x.id)).Nodup := (List.nodup_cons.mp hcarr2).2
      have hi_lt : i < c := hcbound i (by rw [hcarr_eq]; exact List.mem_cons_self _ _)
      have hcbound' : ∀ j ∈ rest.filterMap (fun x => x.id), j < c := by
        intro j hj
        exact hcbound j (by rw [hcarr_eq]; exact List.mem_cons_of_mem _ hj)
      by_cases hm : i ∈ table.map (fun row => row.id)
      · -- update in place
        have hstep : upsertAll table (r :: rest) c =
            upsertAll (table.map (fun row => if row.id = i then r.applyAt i else row))
              rest c := by
          simp [upsertAll, upsertScoreRow, hid, hm]
        have hids_eq : (table.map (fun row => if row.id = i then r.applyAt i else row)).map
            (fun row => row.id) = table.map (fun row => row.id) := by
          rw [List.map_map]
          apply List.map_congr_left
          intro a _
          by_cases ha : a.id = i
          · simp [ha, ScoreRowInput.applyAt]
          · simp [ha]
        have hnd' : ((table.map (fun row => if row.id = i then r.applyAt i else row)).map
            (fun row => row.id)).Nodup := by
          rw [hids_eq]
          exact hnd
        have hbound' : ∀ row ∈ table.map (fun row => if row.id = i then r.applyAt i else row),
            row.id < c := by
          intro row hrow
          rcases List.mem_map.mp hrow with ⟨a, ha, rfl⟩
          by_cases hai : a.id = i
          · simpa [hai, ScoreRowInput.applyAt] using hai ▸ hbound a ha
          · simpa [hai] using hbound a ha
        rw [hstep]
        refine (ih _ _ hnd' hcarr' hwl_rest hbound' hcbound').trans ?_
        simp only [hcarr_eq, List.map_cons]
        refine ((update_filter_perm wlId i r _ hwl_r hi_not table hnd hm).append_right
          (rest.map ScoreRowInput.payload)).trans ?_
        simp only [List.append_assoc, List.singleton_append]
        exact List.Perm.refl _
      · -- identifier absent from the table: inserted under i
        have hstep : upsertAll table (r :: rest) c =
            upsertAll (table ++ [r.applyAt i]) rest c := by
          simp [upsertAll, upsertScoreRow, hid, hm]
        have hnd' : ((table ++ [r.applyAt i]).map (fun row => row.id)).Nodup := by
          rw [List.map_append]
          refine List.Nodup.append hnd (List.nodup_singleton _) ?_
          intro a ha hb
          have hai : a = i := List.mem_singleton.mp hb
          exact hm (hai ▸ ha)
        have hbound' : ∀ row ∈ table ++ [r.applyAt i], row.id < c := by
          intro row hrow
          rcases List.mem_append.mp hrow with h1 | h1
          · exact hbound row h1
          · have : row = r.applyAt i := List.mem_singleton.mp h1
            simpa [this, ScoreRowInput.applyAt] using hi_lt
        have hx_pass : (decide ((r.applyAt i).workout_log_id = wlId ∧
            (r.applyAt i).id ∉ rest.filterMap (fun x => x.id))) = true := by
          simp only [decide_eq_true_eq, ScoreRowInput.applyAt]
          exact ⟨hwl_r, hi_not⟩
        have hfilter_app : (table ++ [r.applyAt i]).filter
            (fun row => decide (row.workout_log_id = wlId ∧
              row.id ∉ rest.filterMap (fun x => x.id))) =
            table.filter (fun row => decide (row.workout_log_id = wlId ∧
              row.id ∉ rest.filterMap (fun x => x.id))) ++ [r.applyAt i] := by
          rw [List.filter_append]
          congr 1
          simp only [List.filter_cons, List.filter_nil]
          rw [if_pos hx_pass]
        have hfilter_same : table.filter (fun row => decide (row.workout_log_id = wlId ∧
            row.id ∉ rest.filterMap (fun x => x.id))) =
            table.filter (fun row => decide (row.workout_log_id = wlId ∧
              row.id ∉ i :: rest.filterMap (fun x => x.id))) := by
          apply List.filter_congr
          intro a ha
          have hai : a.id ≠ i := by
            intro habs
            exact hm (habs ▸ List.mem_map_of_mem _ ha)
          simp [hai]
        rw [hstep]
        refine (ih _ _ hnd' hcarr' hwl_rest hbound' hcbound').trans ?_
        rw [hfilter_app, hfilter_same]
        simp only [hcarr_eq, List.map_append, List.map_cons, List.map_nil,
          ScoreRowInput.payload_applyAt, List.append_assoc, List.singleton_append]
        exact List.Perm.refl _

/-- Whether an `Except` result is a success. -/
def exceptOk {α : Type} : Except String α → Bool
  | Except.ok _ => true
  | Except.error _ => false

/-- The deletion set `updateWorkoutLog` computes: existing identifiers of
the workout log's rows that do not occur among the identifiers carried by
the upsert inputs. -/
def scoreIdsToDeleteOf (table : List ScoreRow) (wlId : Nat)
    (inputs : List ScoreRowInput) : List Nat :=
  (existingScoreIdsOf table wlId).filter (fun i => decide (i ∉ currentScoreIdsOf inputs))

/-- Apply a batch delete by identifier to the `exercise_scores` table. -/
def deleteApply (table : List ScoreRow) (ids : List Nat) : List ScoreRow :=
  table.filter (fun r => decide (r.id ∉ ids))

lemma deleteApply_nil (table : List ScoreRow) : deleteApply table [] = table := by
  simp [deleteApply]

lemma currentScoreIdsOf_eq (inputs : List ScoreRowInput) :
    currentScoreIdsOf inputs = inputs.filterMap (fun x => x.id) := by
  induction inputs with
  | nil => rfl
  | cons x rest ih =>
    rcases hx : x.id with _ | i <;>
      simp [currentScoreIdsOf, List.filter_cons, List.filterMap_cons, hx] <;>
      simpa [currentScoreIdsOf] using ih

lemma updateScoreInputs_wl (u : User) (wlId : Nat) (logs : List ExerciseLog) :
    ∀ x ∈ updateScoreInputs u wlId logs, x.workout_log_id = wlId := by
  intro x hx
  rcases List.mem_flatMap.mp hx with ⟨log, -, hx2⟩
  rcases List.mem_map.mp hx2 with ⟨s, -, rfl⟩
  rfl

lemma le_listMax (l : List Nat) : ∀ a ∈ l, a ≤ listMax l := by
  induction l with
  | nil => intro a ha; simp at ha
  | cons x rest ih =>
    intro a ha
    rcases List.mem_cons.mp ha with rfl | ha
    · exact le_max_left _ _
    · exact le_trans (ih a ha) (le_max_right _ _)

lemma freshScoreIdBase_table_lt (table : List ScoreRow) (carried : List Nat) :
    ∀ row ∈ table, row.id < freshScoreIdBase table carried := by
  intro row hrow
  have : row.id ≤ listMax (table.map (fun r => r.id) ++ carried) :=
    le_listMax _ _ (List.mem_append_left _ (List.mem_map_of_mem _ hrow))
  exact Nat.lt_succ_of_le this

lemma freshScoreIdBase_carried_lt (table : List ScoreRow) (carried : List Nat) :
    ∀ j ∈ carried, j < freshScoreIdBase table carried := by
  intro j hj
  have : j ≤ listMax (table.map (fun r => r.id) ++ carried) :=
    le_listMax _ _ (List.mem_append_right _ hj)
  exact Nat.lt_succ_of_le this

lemma deleteApply_ids_nodup (table : List ScoreRow) (ids : List Nat)
    (hnd : (table.map (fun row => row.id)).Nodup) :
    ((deleteApply table ids).map (fun row => row.id)).Nodup :=
  List.Nodup.sublist (List.Sublist.map _ (List.filter_sublist table)) hnd

lemma updateWorkoutLog_ok_shape (env : Env) (u : User) (wlId : Nat) (w : Workout)
    (logs : List ExerciseLog) (notes : String) (st : HookState)
    (hok : exceptOk (updateWorkoutLog env (some u) wlId w logs notes st).1 = true) :
    ((updateScoreInputs u wlId logs).filterMap (fun x => x.id)).Nodup
    ∧ (updateWorkoutLog env (some u) wlId w logs notes st).2.db.exercise_scores =
      upsertAll
        (deleteApply st.db.exercise_scores
          (scoreIdsToDeleteOf st.db.exercise_scores wlId (updateScoreInputs u wlId logs)))
        (updateScoreInputs u wlId logs)
        (freshScoreIdBase
          (deleteApply st.db.exercise_scores
            (scoreIdsToDeleteOf st.db.exercise_scores wlId (updateScoreInputs u wlId logs)))
          ((updateScoreInputs u wlId logs).filterMap (fun x => x.id)))
    ∧ (updateWorkoutLog env (some u) wlId w logs notes st).2.logging = false
    ∧ (updateWorkoutLog env (some u) wlId w logs notes st).2.db.workout_logs =
      st.db.workout_logs.map (fun r =>
        if r.id = wlId ∧ r.user_id = u.id then
          { id := r.id, user_id := r.user_id, workout_id := r.workout_id, notes := notes,
            score := calculateTotalScore logs w, total := calculateTotalScore logs w,
            completed_at := env.now }
        else r)
    ∧ ∃ row : WorkoutLogRow,
        ((updateWorkoutLog env (some u) wlId w logs notes st).2.db.workout_logs).filter
          (fun r => decide (r.id = wlId ∧ r.user_id = u.id)) = [row] := by
  rcases hrun : updateWorkoutLog env (some u) wlId w logs notes st with ⟨res, stF⟩
  rw [hrun] at hok
  simp only [updateWorkoutLog, storeCall] at hrun
  repeat' split at hrun
  all_goals cases hrun
  all_goals try simp [exceptOk] at hok
  rename_i xa hf1 xb wlrow hmatch xc hf2 dsv av st4v hdelEq xd hf4 hnodup
  split at hdelEq
  · -- a delete call was issued
    split at hdelEq
    · -- the delete call faulted: contradicts the successful continuation
      injection hdelEq with h1 h2
      simp at h1
    · injection hdelEq with h1 h2
      subst h2
      exact ⟨hnodup, rfl, rfl, rfl, wlrow, hmatch⟩
  · -- nothing to delete
    rename_i hlen
    injection hdelEq with h1 h2
    subst h2
    have htd : scoreIdsToDeleteOf st.db.exercise_scores wlId
        (updateScoreInputs u wlId logs) = [] :=
      List.eq_nil_of_length_eq_zero (Nat.eq_zero_of_not_pos hlen)
    refine ⟨hnodup, ?_, rfl, rfl, wlrow, hmatch⟩
    rw [htd, deleteApply_nil]

lemma deleteApply_leftover_nil (table : List ScoreRow) (wlId : Nat)
    (inputs : List ScoreRowInput) :
    (deleteApply table (scoreIdsToDeleteOf table wlId inputs)).filter
      (fun row => decide (row.workout_log_id = wlId ∧
        row.id ∉ inputs.filterMap (fun x => x.id))) = [] := by
  rw [List.filter_eq_nil_iff]
  intro row hrow
  simp only [decide_eq_true_eq, not_and, not_not]
  intro hwl
  have hmem := List.mem_filter.mp hrow
  have htab : row ∈ table := hmem.1
  have hnotdel : row.id ∉ scoreIdsToDeleteOf table wlId inputs := by
    simpa using hmem.2
  have hexist : row.id ∈ existingScoreIdsOf table wlId := by
    apply List.mem_dedup.mpr
    exact List.mem_map_of_mem _ (List.mem_filter.mpr ⟨htab, by simp [hwl]⟩)
  by_contra habs
  refine hnotdel ?_
  refine List.mem_filter.mpr ⟨hexist, ?_⟩
  simp only [decide_eq_true_eq, currentScoreIdsOf_eq]
  exact habs

lemma updateWorkoutLog_wlRows_perm (env : Env) (u : User) (wlId : Nat)
    (w : Workout) (logs : List ExerciseLog) (notes : String) (st : HookState)
    (hnd : (st.db.exercise_scores.map (fun row => row.id)).Nodup)
    (hok : exceptOk (updateWorkoutLog env (some u) wlId w logs notes st).1 = true) :
    ((wlRows (updateWorkoutLog env (some u) wlId w logs notes st).2.db.exercise_scores
        wlId).map ScoreRow.payload).Perm
      ((updateScoreInputs u wlId logs).map ScoreRowInput.payload) := by
  obtain ⟨hnodup, htable, -⟩ := updateWorkoutLog_ok_shape env u wlId w logs notes st hok
  rw [htable]
  have hperm := upsertAll_wlRows_perm wlId (updateScoreInputs u wlId logs)
    (deleteApply st.db.exercise_scores
      (scoreIdsToDeleteOf st.db.exercise_scores wlId (updateScoreInputs u wlId logs)))
    (freshScoreIdBase
      (deleteApply st.db.exercise_scores
        (scoreIdsToDeleteOf st.db.exercise_scores wlId (updateScoreInputs u wlId logs)))
      ((updateScoreInputs u wlId logs).filterMap (fun x => x.id)))
    (deleteApply_ids_nodup _ _ hnd) hnodup (updateScoreInputs_wl u wlId logs)
    (freshScoreIdBase_table_lt _ _) (freshScoreIdBase_carried_lt _ _)
  refine hperm.trans ?_
  rw [deleteApply_leftover_nil]
  simp

/-- C2: whenever `updateWorkoutLog` completes without error against a store
with distinct row identifiers, the `exercise_scores` rows persisted for the
workout log afterwards are exactly one row per logged set supplied: their
identifier-free fields are a permutation of the supplied sets' fields - no
orphaned rows from the previous set, no duplicates. -/
theorem updateWorkoutLog_reconciles (env : Env) (u : User) (wlId : Nat)
    (w : Workout) (logs : List ExerciseLog) (notes : String) (st : HookState)
    (hnd : (st.db.exercise_scores.map (fun row => row.id)).Nodup)
    (hok : exceptOk (updateWorkoutLog env (some u) wlId w logs notes st).1 = true) :
    ((wlRows (updateWorkoutLog env (some u) wlId w logs notes st).2.db.exercise_scores
        wlId).map ScoreRow.payload).Perm
      ((updateScoreInputs u wlId logs).map ScoreRowInput.payload) :=
  updateWorkoutLog_wlRows_perm env u wlId w logs notes st hnd hok

/-- The demo user of the concrete reconciliation scenarios. -/
def demoUser : User := { id := "u" }

/-- A persisted workout log owned by the demo user. -/
def demoWorkoutLogRow : WorkoutLogRow :=
  { id := 1, user_id := "u", workout_id := 5, notes := "", score := 0, total := 0,
    completed_at := 0 }

/-- A stale score row of the demo workout log, to be reconciled away. -/
def demoOldScoreRow : ScoreRow :=
  { id := 7, user_id := "u", workout_log_id := 1, exercise_id := "old", weight := none,
    reps := 0, distance := none, time := none, calories := none }

/-- The demo hook state: one workout log with one stale score row. -/
def demoSt : HookState :=
  { db := { workout_logs := [demoWorkoutLogRow], exercise_scores := [demoOldScoreRow] },
    callNo := 0, logging := false }

/-- Replacement logs for the demo update: one fresh set. -/
def demoLogs : List ExerciseLog :=
  [{ exercise_id := "ex", sets := [weightSet 10 2] }]

/-- C2 witness: the reconciliation invariant at the concrete demo inputs. -/
theorem updateWorkoutLog_reconciles_witness :
    ((wlRows (updateWorkoutLog (noFaultEnv 3) (some demoUser) 1 runScenarioWorkout
        demoLogs "" demoSt).2.db.exercise_scores 1).map ScoreRow.payload).Perm
      ((updateScoreInputs demoUser 1 demoLogs).map ScoreRowInput.payload) :=
  updateWorkoutLog_reconciles (noFaultEnv 3) demoUser 1 runScenarioWorkout demoLogs ""
    demoSt (by decide) (by decide)

/-- C3: on a successful run, `updateWorkoutLog` computes the deletion set as
exactly the existing identifiers for the workout log that are not carried by
the supplied sets, deletes exactly that set, and applies the delete before
the insert-or-update-by-identifier batch, in which an input carrying an
identifier present in the table updates that row in place and an input
without an identifier is appended as a fresh row. -/
theorem updateWorkoutLog_delete_then_upsert (env : Env) (u : User) (wlId : Nat)
    (w : Workout) (logs : List ExerciseLog) (notes : String) (st : HookState)
    (hok : exceptOk (updateWorkoutLog env (some u) wlId w logs notes st).1 = true) :
    (∀ i : Nat,
      i ∈ scoreIdsToDeleteOf st.db.exercise_scores wlId (updateScoreInputs u wlId logs)
      ↔ (i ∈ existingScoreIdsOf st.db.exercise_scores wlId ∧
          i ∉ (updateScoreInputs u wlId logs).filterMap (fun x => x.id)))
    ∧ (updateWorkoutLog env (some u) wlId w logs notes st).2.db.exercise_scores =
      upsertAll
        (deleteApply st.db.exercise_scores
          (scoreIdsToDeleteOf st.db.exercise_scores wlId (updateScoreInputs u wlId logs)))
        (updateScoreInputs u wlId logs)
        (freshScoreIdBase
          (deleteApply st.db.exercise_scores
            (scoreIdsToDeleteOf st.db.exercise_scores wlId (updateScoreInputs u wlId logs)))
          ((updateScoreInputs u wlId logs).filterMap (fun x => x.id)))
    ∧ (∀ (table : List ScoreRow) (r : ScoreRowInput) (c : Nat), r.id = none →
        upsertScoreRow table r c = (table ++ [r.applyAt c], c + 1))
    ∧ (∀ (table : List ScoreRow) (r : ScoreRowInput) (i c : Nat), r.id = some i →
        i ∈ table.map (fun row => row.id) →
        upsertScoreRow table r c =
          (table.map (fun row => if row.id = i then r.applyAt i else row), c)) := by
  refine ⟨?_, (updateWorkoutLog_ok_shape env u wlId w logs notes st hok).2.1, ?_, ?_⟩
  · intro i
    simp [scoreIdsToDeleteOf, List.mem_filter, currentScoreIdsOf_eq]
  · intro table r c hid
    simp [upsertScoreRow, hid]
  · intro table r i c hid hm
    simp [upsertScoreRow, hid, hm]

/-- C3 witness: the deletion-set characterisation at the concrete demo
inputs, where the stale identifier 7 is exactly the one deleted. -/
theorem updateWorkoutLog_delete_then_upsert_witness :
    7 ∈ scoreIdsToDeleteOf demoSt.db.exercise_scores 1 (updateScoreInputs demoUser 1 demoLogs)
    ↔ (7 ∈ existingScoreIdsOf demoSt.db.exercise_scores 1 ∧
        7 ∉ (updateScoreInputs demoUser 1 demoLogs).filterMap (fun x => x.id)) :=
  (updateWorkoutLog_delete_then_upsert (noFaultEnv 3) demoUser 1 runScenarioWorkout
    demoLogs "" demoSt (by decide)).1 7

/-- Turn a persisted row back into an upsert input carrying its identifier,
as the UI does when re-submitting fetched rows. -/
def rowToInput (row : ScoreRow) : ScoreRowInput :=
  { id := some row.id, user_id := row.user_id, workout_log_id := row.workout_log_id,
    exercise_id := row.exercise_id, weight := row.weight, reps := row.reps,
    distance := row.distance, time := row.time, calories := row.calories }

lemma rowToInput_applyAt (row : ScoreRow) :
    (rowToInput row).applyAt row.id = row := rfl

lemma upsertAll_fixed (T : List ScoreRow)
    (hnd : (T.map (fun row => row.id)).Nodup) :
    ∀ (batch : List ScoreRowInput) (c : Nat),
      (∀ r ∈ batch, ∃ row, row ∈ T ∧ r = rowToInput row) →
      upsertAll T batch c = T := by
  intro batch
  induction batch with
  | nil => intro c _; rfl
  | cons r rest ih =>
    intro c hall
    obtain ⟨row, hrowT, rfl⟩ := hall _ (List.mem_cons_self _ _)
    have hm : row.id ∈ T.map (fun x => x.id) := List.mem_map_of_mem _ hrowT
    have hupd : upsertScoreRow T (rowToInput row) c =
        (T.map (fun x => if x.id = row.id then (rowToInput row).applyAt row.id else x), c) := by
      simp [upsertScoreRow, rowToInput, hm]
    have hTfix : T.map (fun x => if x.id = row.id then (rowToInput row).applyAt row.id else x)
        = T := by
      apply map_eq_self_of_eq
      intro a ha
      by_cases hai : a.id = row.id
      · have haeq : a = row := List.inj_on_of_nodup_map hnd ha hrowT (by simpa using hai)
        rw [if_pos hai, rowToInput_applyAt, haeq]
      · rw [if_neg hai]
    show upsertAll T (rowToInput row :: rest) c = T
    simp only [upsertAll, hupd, hTfix]
    exact ih c (fun x hx => hall x (List.mem_cons_of_mem _ hx))

lemma upsertAll_ids_nodup (batch : List ScoreRowInput) :
    ∀ (table : List ScoreRow) (c : Nat),
      (table.map (fun row => row.id)).Nodup →
      (batch.filterMap (fun x => x.id)).Nodup →
      (∀ row ∈ table, row.id < c) →
      (∀ j ∈ batch.filterMap (fun x => x.id), j < c) →
      ((upsertAll table batch c).map (fun row => row.id)).Nodup := by
  induction batch with
  | nil =>
    intro table c hnd _ _ _
    simpa [upsertAll] using hnd
  | cons r rest ih =>
    intro table c hnd hcarr hbound hcbound
    rcases hid : r.id with _ | i
    · have hcarr_eq : (r :: rest).filterMap (fun x => x.id) =
          rest.filterMap (fun x => x.id) := by
        simp [List.filterMap_cons, hid]
      have hstep : upsertAll table (r :: rest) c =
          upsertAll (table ++ [r.applyAt c]) rest (c + 1) := by
        simp [upsertAll, upsertScoreRow, hid]
      have hcarr' : (rest.filterMap (fun x => x.id)).Nodup := by
        rw [← hcarr_eq]; exact hcarr
      have hnd' : ((table ++ [r.applyAt c]).map (fun row => row.id)).Nodup := by
        rw [List.map_append]
        refine List.Nodup.append hnd (List.nodup_singleton _) ?_
        intro a ha hb
        rcases List.mem_map.mp ha with ⟨row, hrow, rfl⟩
        have hc : row.id = c := by simpa [ScoreRowInput.applyAt] using hb
        exact absurd hc (Nat.ne_of_lt (hbound row hrow))
      have hbound' : ∀ row ∈ table ++ [r.applyAt c], row.id < c + 1 := by
        intro row hrow
        rcases List.mem_append.mp hrow with h1 | h1
        · exact Nat.lt_succ_of_lt (hbound row h1)
        · have : row = r.applyAt c := List.mem_singleton.mp h1
          simp [this, ScoreRowInput.applyAt]
      have hcbound' : ∀ j ∈ rest.filterMap (fun x => x.id), j < c + 1 := by
        intro j hj
        refine Nat.lt_succ_of_lt (hcbound j ?_)
        rw [hcarr_eq]; exact hj
      rw [hstep]
      exact ih _ _ hnd' hcarr' hbound' hcbound'
    · have hcarr_eq : (r :: rest).filterMap (fun x => x.id) =
          i :: rest.filterMap (fun x => x.id) := by
        simp [List.filterMap_cons, hid]
      have hcarr2 : (i :: rest.filterMap (fun x => x.id)).Nodup := by
        rw [← hcarr_eq]; exact hcarr
      have hcarr' : (rest.filterMap (fun x => x.id)).Nodup := (List.nodup_cons.mp hcarr2).2
      have hi_lt : i < c := hcbound i (by rw [hcarr_eq]; exact List.mem_cons_self _ _)
      have hcbound' : ∀ j ∈ rest.filterMap (fun x => x.id), j < c := by
        intro j hj
        exact hcbound j (by rw [hcarr_eq]; exact List.mem_cons_of_mem _ hj)
      by_cases hm : i ∈ table.map (fun row => row.id)
      · have hstep : upsertAll table (r :: rest) c =
            upsertAll (table.map (fun row => if row.id = i then r.applyAt i else row))
              rest c := by
          simp [upsertAll, upsertScoreRow, hid, hm]
        have hids_eq : (table.map (fun row => if row.id = i then r.applyAt i else row)).map
            (fun row => row.id) = table.map (fun row => row.id) := by
          rw [List.map_map]
          apply List.map_congr_left
          intro a _
          by_cases ha : a.id = i
          · simp [ha, ScoreRowInput.applyAt]
          · simp [ha]
        have hnd' : ((table.map (fun row => if row.id = i then r.applyAt i else row)).map
            (fun row => row.id)).Nodup := by
          rw [hids_eq]; exact hnd
        have hbound' : ∀ row ∈ table.map (fun row => if row.id = i then r.applyAt i else row),
            row.id < c := by
          intro row hrow
          rcases List.mem_map.mp hrow with ⟨a, ha, rfl⟩
          by_cases hai : a.id = i
          · simpa [hai, ScoreRowInput.applyAt] using hai ▸ hbound a ha
          · simpa [hai] using hbound a ha
        rw [hstep]
        exact ih _ _ hnd' hcarr' hbound' hcbound'
      · have hstep : upsertAll table (r :: rest) c =
            upsertAll (table ++ [r.applyAt i]) rest c := by
          simp [upsertAll, upsertScoreRow, hid, hm]
        have hnd' : ((table ++ [r.applyAt i]).map (fun row => row.id)).Nodup := by
          rw [List.map_append]
          refine List.Nodup.append hnd (List.nodup_singleton _) ?_
          intro a ha hb
          have hai : a = i := List.mem_singleton.mp hb
          exact hm (hai ▸ ha)
        have hbound' : ∀ row ∈ table ++ [r.applyAt i], row.id < c := by
          intro row hrow
          rcases List.mem_append.mp hrow with h1 | h1
          · exact hbound row h1
          · have : row = r.applyAt i := List.mem_singleton.mp h1
            simpa [this, ScoreRowInput.applyAt] using hi_lt
        rw [hstep]
        exact ih _ _ hnd' hcarr' hbound' hcbound'

lemma filter_map_comm (rows : List WorkoutLogRow) (p : WorkoutLogRow → Bool)
    (f : WorkoutLogRow → WorkoutLogRow) (hf : ∀ r, p (f r) = p r) :
    (rows.map f).filter p = (rows.filter p).map f := by
  induction rows with
  | nil => rfl
  | cons hd tl ih =>
    rcases hp : p hd with _ | _ <;>
      simp [List.filter_cons, hf, hp, ih]

lemma filterMap_rowToInput (l : List ScoreRow) :
    (l.map rowToInput).filterMap (fun x => x.id) = l.map (fun row => row.id) := by
  induction l with
  | nil => rfl
  | cons hd tl ih =>
    simp [rowToInput, List.filterMap_cons, ih]

/-- C4: calling `updateWorkoutLog` again with logs resubmitting, in any
order and grouping, exactly the rows the first call persisted (each set
carrying its persisted identifier) leaves the `exercise_scores` table
unchanged - the second call succeeds and produces the same final row set,
with no duplicate or orphaned rows. -/
theorem updateWorkoutLog_idempotent (u : User) (wlId : Nat) (w : Workout)
    (logs logs2 : List ExerciseLog) (notes : String) (st : HookState) (now1 now2 : Nat)
    (hnd : (st.db.exercise_scores.map (fun row => row.id)).Nodup)
    (hok : exceptOk (updateWorkoutLog (noFaultEnv now1) (some u) wlId w logs notes st).1 = true)
    (hlogs2 : (updateScoreInputs u wlId logs2).Perm
      ((wlRows (updateWorkoutLog (noFaultEnv now1) (some u) wlId w logs notes
        st).2.db.exercise_scores wlId).map rowToInput)) :
    exceptOk (updateWorkoutLog (noFaultEnv now2) (some u) wlId w logs2 notes
      (updateWorkoutLog (noFaultEnv now1) (some u) wlId w logs notes st).2).1 = true
    ∧ (updateWorkoutLog (noFaultEnv now2) (some u) wlId w logs2 notes
        (updateWorkoutLog (noFaultEnv now1) (some u) wlId w logs notes st).2).2.db.exercise_scores =
      (updateWorkoutLog (noFaultEnv now1) (some u) wlId w logs notes st).2.db.exercise_scores := by
  obtain ⟨hnodup1, hT1eq, -, -, row1, hsing⟩ :=
    updateWorkoutLog_ok_shape (noFaultEnv now1) u wlId w logs notes st hok
  set st1 := (updateWorkoutLog (noFaultEnv now1) (some u) wlId w logs notes st).2 with hst1
  have hnd1 : (st1.db.exercise_scores.map (fun row => row.id)).Nodup := by
    rw [hT1eq]
    exact upsertAll_ids_nodup _ _ _ (deleteApply_ids_nodup _ _ hnd) hnodup1
      (freshScoreIdBase_table_lt _ _) (freshScoreIdBase_carried_lt _ _)
  have hcar2 : ((updateScoreInputs u wlId logs2).filterMap (fun x => x.id)).Perm
      ((wlRows st1.db.exercise_scores wlId).map (fun row => row.id)) := by
    have h := hlogs2.filterMap (fun x => x.id)
    rw [filterMap_rowToInput] at h
    exact h
  have hwlsub : (wlRows st1.db.exercise_scores wlId).Sublist st1.db.exercise_scores :=
    List.filter_sublist _
  have hcar2nd : ((wlRows st1.db.exercise_scores wlId).map (fun row => row.id)).Nodup :=
    List.Nodup.sublist (List.Sublist.map _ hwlsub) hnd1
  have hdel2 : scoreIdsToDeleteOf st1.db.exercise_scores wlId
      (updateScoreInputs u wlId logs2) = [] := by
    rw [scoreIdsToDeleteOf, List.filter_eq_nil_iff]
    intro i hi
    have hi2 : i ∈ (wlRows st1.db.exercise_scores wlId).map (fun row => row.id) := by
      simpa [existingScoreIdsOf, List.mem_dedup] using hi
    simp only [decide_eq_true_eq, not_not, currentScoreIdsOf_eq]
    exact (hcar2.mem_iff).mpr hi2
  have hfix : ∀ c, upsertAll st1.db.exercise_scores (updateScoreInputs u wlId logs2) c =
      st1.db.exercise_scores := by
    intro c
    refine upsertAll_fixed _ hnd1 _ c ?_
    intro r hr
    have hr2 : r ∈ (wlRows st1.db.exercise_scores wlId).map rowToInput :=
      (hlogs2.mem_iff).mp hr
    rcases List.mem_map.mp hr2 with ⟨row, hrow, rfl⟩
    exact ⟨row, (List.mem_filter.mp hrow).1, rfl⟩
  have hpredf : ∀ r : WorkoutLogRow,
      (fun r => decide (r.id = wlId ∧ r.user_id = u.id))
        ((fun r => if r.id = wlId ∧ r.user_id = u.id then
          { id := r.id, user_id := r.user_id, workout_id := r.workout_id, notes := notes,
            score := calculateTotalScore logs2 w, total := calculateTotalScore logs2 w,
            completed_at := now2 } else r) r) =
      (fun r => decide (r.id = wlId ∧ r.user_id = u.id)) r := by
    intro r
    by_cases h : r.id = wlId ∧ r.user_id = u.id
    · simp [h]
    · simp [h]
  have hms : ∃ rr : WorkoutLogRow,
      (st1.db.workout_logs.map (fun r => if r.id = wlId ∧ r.user_id = u.id then
        { id := r.id, user_id := r.user_id, workout_id := r.workout_id, notes := notes,
          score := calculateTotalScore logs2 w, total := calculateTotalScore logs2 w,
          completed_at := now2 } else r)).filter
        (fun r => decide (r.id = wlId ∧ r.user_id = u.id)) = [rr] := by
    rw [filter_map_comm _ _ _ hpredf, hsing]
    exact ⟨_, rfl⟩
  rcases hrun2 : updateWorkoutLog (noFaultEnv now2) (some u) wlId w logs2 notes st1
    with ⟨res2, stF2⟩
  simp only [updateWorkoutLog, storeCall, noFaultEnv] at hrun2
  repeat' split at hrun2
  all_goals cases hrun2
  · -- the delete step cannot error in a fault-free environment
    rename_i hdelEq
    split at hdelEq <;> (injection hdelEq with h1 h2; simp at h1)
  · -- the successful continuation
    rename_i hdelEq hnodup2b
    split at hdelEq
    · rename_i hlen
      have h0 : (List.filter (fun i => decide (i ∉ currentScoreIdsOf
          (updateScoreInputs u wlId logs2)))
          (existingScoreIdsOf st1.db.exercise_scores wlId)) = [] := hdel2
      rw [h0] at hlen
      simp at hlen
    · injection hdelEq with h1 h2
      subst h2
      exact ⟨rfl, hfix _⟩
  · -- the carried identifiers are distinct, so the upsert cannot reject
    rename_i hnodup2
    exact absurd (hcar2.nodup_iff.mpr hcar2nd) hnodup2
  · -- exactly one workout-log row still matches on the second run
    rename_i hdef
    obtain ⟨rr, hrr⟩ := hms
    exact absurd hrr (hdef rr)

/-- Two fresh sets for the first demo update. -/
def demoLogsPair : List ExerciseLog :=
  [{ exercise_id := "ex", sets := [weightSet 10 2, weightSet 20 3] }]

/-- The same two sets resubmitted in swapped order, each carrying the
identifier the first call persisted for it. -/
def demoLogsPairSwap : List ExerciseLog :=
  [{ exercise_id := "ex",
     sets := [{ id := some 2, weight := some 20, reps := 3, distance := none,
                time := none, calories := none },
              { id := some 1, weight := some 10, reps := 2, distance := none,
                time := none, calories := none }] }]

/-- C4 witness: running the demo update twice, the second time resubmitting
the two persisted rows in swapped order under their persisted identifiers,
leaves the score table unchanged. -/
theorem updateWorkoutLog_idempotent_witness :
    exceptOk (updateWorkoutLog (noFaultEnv 9) (some demoUser) 1 runScenarioWorkout
      demoLogsPairSwap "" (updateWorkoutLog (noFaultEnv 3) (some demoUser) 1 runScenarioWorkout
        demoLogsPair "" demoSt).2).1 = true
    ∧ (updateWorkoutLog (noFaultEnv 9) (some demoUser) 1 runScenarioWorkout demoLogsPairSwap ""
        (updateWorkoutLog (noFaultEnv 3) (some demoUser) 1 runScenarioWorkout demoLogsPair ""
          demoSt).2).2.db.exercise_scores =
      (updateWorkoutLog (noFaultEnv 3) (some demoUser) 1 runScenarioWorkout demoLogsPair ""
        demoSt).2.db.exercise_scores :=
  updateWorkoutLog_idempotent demoUser 1 runScenarioWorkout demoLogsPair demoLogsPairSwap ""
    demoSt 3 9 (by decide) (by decide) (by decide)

lemma logWorkout_logging_false (env : Env) (u : User) (w : Workout)
    (logs : List ExerciseLog) (notes : String) (st : HookState) :
    (logWorkout env (some u) w logs notes st).2.logging = false := by
  rcases h1 : env.faults st.callNo with _ | e1
  · rcases h2 : env.faults (st.callNo + 1) with _ | e2
    · simp [logWorkout, storeCall, h1, h2]
    · simp [logWorkout, storeCall, h1, h2]
  · simp [logWorkout, storeCall, h1]

lemma updateWorkoutLog_logging_false (env : Env) (u : User) (wlId : Nat)
    (w : Workout) (logs : List ExerciseLog) (notes : String) (st : HookState) :
    (updateWorkoutLog env (some u) wlId w logs notes st).2.logging = false := by
  rcases hrun : updateWorkoutLog env (some u) wlId w logs notes st with ⟨res, stF⟩
  simp only [updateWorkoutLog, storeCall] at hrun
  repeat' split at hrun
  all_goals cases hrun
  all_goals rfl

lemma logWorkout_noFault_ok (u : User) (w : Workout) (logs : List ExerciseLog)
    (notes : String) (st : HookState) (now : Nat) :
    exceptOk (logWorkout (noFaultEnv now) (some u) w logs notes st).1 = true
    ∧ (logWorkout (noFaultEnv now) (some u) w logs notes st).2.callNo = st.callNo + 2 := by
  constructor <;> simp [logWorkout, storeCall, noFaultEnv, exceptOk]

lemma logWorkout_error_from_fault (env : Env) (u : User) (w : Workout)
    (logs : List ExerciseLog) (notes : String) (st : HookState) (err : String)
    (herr : (logWorkout env (some u) w logs notes st).1 = Except.error err) :
    ∃ n, env.faults n = some err := by
  rcases h1 : env.faults st.callNo with _ | e1
  · rcases h2 : env.faults (st.callNo + 1) with _ | e2
    · simp [logWorkout, storeCall, h1, h2] at herr
    · simp [logWorkout, storeCall, h1, h2] at herr
      exact ⟨st.callNo + 1, by rw [h2, herr]⟩
  · simp [logWorkout, storeCall, h1] at herr
    exact ⟨st.callNo, by rw [h1, herr]⟩

lemma logWorkout_failAt (u : User) (w : Workout) (logs : List ExerciseLog)
    (notes : String) (st : HookState) (now : Nat) (k : Nat) (e : String)
    (hk1 : st.callNo ≤ k) (hk2 : k < st.callNo + 2) :
    (logWorkout (failAtEnv k e now) (some u) w logs notes st).1 = Except.error e := by
  have hcases : k = st.callNo ∨ k = st.callNo + 1 := by omega
  rcases hcases with rfl | rfl
  · simp [logWorkout, storeCall, failAtEnv]
  · have hne : ¬ st.callNo = st.callNo + 1 := by omega
    simp [logWorkout, storeCall, failAtEnv, hne]

lemma pred_upd_eq (u : User) (wlId : Nat) (notes : String) (sc : Int) (nw : Nat) :
    ∀ r : WorkoutLogRow,
      (fun r => decide (r.id = wlId ∧ r.user_id = u.id))
        ((fun r => if r.id = wlId ∧ r.user_id = u.id then
          { id := r.id, user_id := r.user_id, workout_id := r.workout_id, notes := notes,
            score := sc, total := sc, completed_at := nw } else r) r) =
      (fun r => decide (r.id = wlId ∧ r.user_id = u.id)) r := by
  intro r
  by_cases h : r.id = wlId ∧ r.user_id = u.id
  · simp [h]
  · simp [h]

lemma updateWorkoutLog_error_origin (env : Env) (u : User) (wlId : Nat) (w : Workout)
    (logs : List ExerciseLog) (notes : String) (st : HookState) (err : String)
    (herr : (updateWorkoutLog env (some u) wlId w logs notes st).1 = Except.error err) :
    (∃ n, env.faults n = some err)
    ∨ (err = "JSON object requested, multiple (or no) rows returned"
        ∧ (st.db.workout_logs.filter
            (fun r => decide (r.id = wlId ∧ r.user_id = u.id))).length ≠ 1)
    ∨ (err = "ON CONFLICT DO UPDATE command cannot affect row a second time"
        ∧ (st.db.workout_logs.filter
            (fun r => decide (r.id = wlId ∧ r.user_id = u.id))).length = 1
        ∧ ¬ ((updateScoreInputs u wlId logs).filterMap (fun x => x.id)).Nodup) := by
  rcases hrun : updateWorkoutLog env (some u) wlId w logs notes st with ⟨res, stF⟩
  rw [hrun] at herr
  simp only [updateWorkoutLog, storeCall] at hrun
  repeat' split at hrun
  all_goals cases hrun
  all_goals simp only at herr
  all_goals try (injection herr with herr2; subst herr2)
  all_goals try injection herr
  · rename_i e1 heq
    exact Or.inl ⟨_, heq⟩
  · rename_i e2 heq
    exact Or.inl ⟨_, heq⟩
  · -- the delete step errored: its fault is the origin
    rename_i ed stD hdelEq
    split at hdelEq
    · split at hdelEq
      · rename_i e3 heq3
        injection hdelEq with hd1 hd2
        injection hd1 with hd3
        subst hd3
        exact Or.inl ⟨_, heq3⟩
      · injection hdelEq with hd1 hd2
        injection hd1
    · injection hdelEq with hd1 hd2
      injection hd1
  · rename_i e4 heq
    exact Or.inl ⟨_, heq⟩
  · -- the upsert batch carried a duplicate identifier
    rename_i xa hf1 xb wlrow hmatch xc hf2 dsv av st4v hdelEq xd hf4 hnd
    refine Or.inr (Or.inr ⟨rfl, ?_, hnd⟩)
    rw [filter_map_comm _ _ _
      (pred_upd_eq u wlId notes (calculateTotalScore logs w) env.now)] at hmatch
    have hl := congrArg List.length hmatch
    simpa using hl
  · -- no unique workout-log row matched
    rename_i hdef
    refine Or.inr (Or.inl ⟨rfl, ?_⟩)
    intro hlen1
    obtain ⟨r0, hr0⟩ := List.length_eq_one.mp hlen1
    refine hdef ((fun r => if r.id = wlId ∧ r.user_id = u.id then
      { id := r.id, user_id := r.user_id, workout_id := r.workout_id, notes := notes,
        score := calculateTotalScore logs w, total := calculateTotalScore logs w,
        completed_at := env.now } else r) r0) ?_
    rw [filter_map_comm _ _ _
      (pred_upd_eq u wlId notes (calculateTotalScore logs w) env.now), hr0]
    rfl

lemma updateWorkoutLog_ok_val (env : Env) (u : User) (wlId : Nat) (w : Workout)
    (logs : List ExerciseLog) (notes : String) (st : HookState) (v : WorkoutLogRow)
    (hok : (updateWorkoutLog env (some u) wlId w logs notes st).1 = Except.ok v) :
    ((updateScoreInputs u wlId logs).filterMap (fun x => x.id)).Nodup
    ∧ ∃ row, st.db.workout_logs.filter
        (fun r => decide (r.id = wlId ∧ r.user_id = u.id)) = [row]
      ∧ v = { id := row.id, user_id := row.user_id, workout_id := row.workout_id,
              notes := notes, score := calculateTotalScore logs w,
              total := calculateTotalScore logs w, completed_at := env.now } := by
  rcases hrun : updateWorkoutLog env (some u) wlId w logs notes st with ⟨res, stF⟩
  rw [hrun] at hok
  simp only [updateWorkoutLog, storeCall] at hrun
  repeat' split at hrun
  all_goals cases hrun
  all_goals simp only at hok
  all_goals try (exact Except.noConfusion hok)
  rename_i xa hf1 xb wlrow hmatch xc hf2 dsv av st4v hdelEq xd hf4 hnodup
  injection hok with hv
  subst hv
  rw [filter_map_comm _ _ _
    (pred_upd_eq u wlId notes (calculateTotalScore logs w) env.now)] at hmatch
  have hlen : (st.db.workout_logs.filter
      (fun r => decide (r.id = wlId ∧ r.user_id = u.id))).length = 1 := by
    have hl := congrArg List.length hmatch
    simpa using hl
  obtain ⟨row, hrow⟩ := List.length_eq_one.mp hlen
  rw [hrow] at hmatch
  simp only [List.map_cons, List.map_nil, List.cons.injEq, and_true] at hmatch
  have hmem : row ∈ st.db.workout_logs.filter
      (fun r => decide (r.id = wlId ∧ r.user_id = u.id)) := by
    rw [hrow]
    exact List.mem_singleton_self row
  have hcond : row.id = wlId ∧ row.user_id = u.id := by
    have h := List.of_mem_filter hmem
    simpa using h
  rw [if_pos hcond] at hmatch
  exact ⟨hnodup, row, hrow, hmatch.symm⟩

lemma updateWorkoutLog_noFault_nosingle (u : User) (wlId : Nat) (w : Workout)
    (logs : List ExerciseLog) (notes : String) (st : HookState) (now : Nat)
    (hns : (st.db.workout_logs.filter
      (fun r => decide (r.id = wlId ∧ r.user_id = u.id))).length ≠ 1) :
    (updateWorkoutLog (noFaultEnv now) (some u) wlId w logs notes st).1 =
      Except.error "JSON object requested, multiple (or no) rows returned" := by
  rcases hres : (updateWorkoutLog (noFaultEnv now) (some u) wlId w logs notes st).1
    with err | v
  · rcases updateWorkoutLog_error_origin (noFaultEnv now) u wlId w logs notes st err hres
      with ⟨n, hn⟩ | ⟨he, -⟩ | ⟨-, hlen, -⟩
    · simp [noFaultEnv] at hn
    · rw [he]
    · exact absurd hlen hns
  · obtain ⟨-, row, hrow, -⟩ :=
      updateWorkoutLog_ok_val (noFaultEnv now) u wlId w logs notes st v hres
    refine absurd ?_ hns
    rw [hrow]
    rfl

lemma updateWorkoutLog_noFault_dup (u : User) (wlId : Nat) (w : Workout)
    (logs : List ExerciseLog) (notes : String) (st : HookState) (now : Nat)
    (row : WorkoutLogRow)
    (hrow : st.db.workout_logs.filter
      (fun r => decide (r.id = wlId ∧ r.user_id = u.id)) = [row])
    (hdup : ¬ ((updateScoreInputs u wlId logs).filterMap (fun x => x.id)).Nodup) :
    (updateWorkoutLog (noFaultEnv now) (some u) wlId w logs notes st).1 =
      Except.error "ON CONFLICT DO UPDATE command cannot affect row a second time" := by
  rcases hres : (updateWorkoutLog (noFaultEnv now) (some u) wlId w logs notes st).1
    with err | v
  · rcases updateWorkoutLog_error_origin (noFaultEnv now) u wlId w logs notes st err hres
      with ⟨n, hn⟩ | ⟨he, hlen⟩ | ⟨he, -, -⟩
    · simp [noFaultEnv] at hn
    · refine absurd ?_ hlen
      rw [hrow]
      rfl
    · rw [he]
  · obtain ⟨hnd, -⟩ :=
      updateWorkoutLog_ok_val (noFaultEnv now) u wlId w logs notes st v hres
    exact absurd hnd hdup

lemma updateWorkoutLog_noFault_okval (u : User) (wlId : Nat) (w : Workout)
    (logs : List ExerciseLog) (notes : String) (st : HookState) (now : Nat)
    (row : WorkoutLogRow)
    (hrow : st.db.workout_logs.filter
      (fun r => decide (r.id = wlId ∧ r.user_id = u.id)) = [row])
    (hnd : ((updateScoreInputs u wlId logs).filterMap (fun x => x.id)).Nodup) :
    (updateWorkoutLog (noFaultEnv now) (some u) wlId w logs notes st).1 =
      Except.ok { id := row.id, user_id := row.user_id, workout_id := row.workout_id,
                  notes := notes, score := calculateTotalScore logs w,
                  total := calculateTotalScore logs w, completed_at := now } := by
  rcases hres : (updateWorkoutLog (noFaultEnv now) (some u) wlId w logs notes st).1
    with err | v
  · rcases updateWorkoutLog_error_origin (noFaultEnv now) u wlId w logs notes st err hres
      with ⟨n, hn⟩ | ⟨-, hlen⟩ | ⟨-, -, hdup⟩
    · simp [noFaultEnv] at hn
    · refine absurd ?_ hlen
      rw [hrow]
      rfl
    · exact absurd hnd hdup
  · obtain ⟨-, row2, hrow2, hv⟩ :=
      updateWorkoutLog_ok_val (noFaultEnv now) u wlId w logs notes st v hres
    rw [hrow] at hrow2
    injection hrow2 with h1 h2
    subst h1
    exact congrArg Except.ok hv

lemma updateWorkoutLog_failAt_cases (u : User) (wlId : Nat) (w : Workout)
    (logs : List ExerciseLog) (notes : String) (st : HookState) (now k : Nat)
    (e : String) :
    (updateWorkoutLog (failAtEnv k e now) (some u) wlId w logs notes st).1 =
      Except.error e
    ∨ (updateWorkoutLog (failAtEnv k e now) (some u) wlId w logs notes st).1 =
      (updateWorkoutLog (noFaultEnv now) (some u) wlId w logs notes st).1 := by
  rcases hres : (updateWorkoutLog (failAtEnv k e now) (some u) wlId w logs notes st).1
    with err | v
  · rcases updateWorkoutLog_error_origin (failAtEnv k e now) u wlId w logs notes st err
      hres with ⟨n, hn⟩ | ⟨he, hlen⟩ | ⟨he, hlen, hdup⟩
    · simp only [failAtEnv] at hn
      by_cases hk : n = k
      · rw [if_pos hk] at hn
        injection hn with h
        rw [h]
        exact Or.inl rfl
      · rw [if_neg hk] at hn
        exact Option.noConfusion hn
    · subst he
      exact Or.inr (updateWorkoutLog_noFault_nosingle u wlId w logs notes st now
        hlen).symm
    · subst he
      obtain ⟨row, hrow⟩ := List.length_eq_one.mp hlen
      exact Or.inr (updateWorkoutLog_noFault_dup u wlId w logs notes st now row hrow
        hdup).symm
  · obtain ⟨hnd, row, hrow, hv⟩ :=
      updateWorkoutLog_ok_val (failAtEnv k e now) u wlId w logs notes st v hres
    refine Or.inr ?_
    rw [updateWorkoutLog_noFault_okval u wlId w logs notes st now row hrow hnd]
    exact congrArg Except.ok hv

/-- C7 amended: with a signed-in user the `logging` flag is false after
`logWorkout` and `updateWorkoutLog` return, whatever the environment and
outcome; store faults propagate as exactly the originating error (no retry,
no substitution): a fault-free `logWorkout` run succeeds after two store
calls and failing either call fails the run with that precise error; every
error `logWorkout` returns originates verbatim in a store fault; every
error `updateWorkoutLog` returns is either a store fault verbatim, or the
`.single()` error arising when the matched workout-log row count differs
from one, or the duplicate-identifier upsert rejection; under a single
injected fault `updateWorkoutLog` either fails with exactly that error or
returns the fault-free result; and the fault-free run itself fails with the
`.single()` error when no unique row matches, fails with the store's
rejection when the carried identifiers repeat, and otherwise succeeds with
the updated row.  (On the synchronous no-user error the flag is left
unchanged.) -/
theorem store_failures_propagate_and_logging_resets (u : User) (wlId : Nat)
    (w : Workout) (logs : List ExerciseLog) (notes : String) (st : HookState)
    (now : Nat) :
    (∀ env : Env, (logWorkout env (some u) w logs notes st).2.logging = false)
    ∧ (∀ env : Env,
        (updateWorkoutLog env (some u) wlId w logs notes st).2.logging = false)
    ∧ exceptOk (logWorkout (noFaultEnv now) (some u) w logs notes st).1 = true
    ∧ (logWorkout (noFaultEnv now) (some u) w logs notes st).2.callNo = st.callNo + 2
    ∧ (∀ (env : Env) (err : String),
        (logWorkout env (some u) w logs notes st).1 = Except.error err →
        ∃ n, env.faults n = some err)
    ∧ (∀ (k : Nat) (e : String), st.callNo ≤ k → k < st.callNo + 2 →
        (logWorkout (failAtEnv k e now) (some u) w logs notes st).1 = Except.error e)
    ∧ (∀ (env : Env) (err : String),
        (updateWorkoutLog env (some u) wlId w logs notes st).1 = Except.error err →
        (∃ n, env.faults n = some err)
        ∨ (err = "JSON object requested, multiple (or no) rows returned"
            ∧ (st.db.workout_logs.filter
                (fun r => decide (r.id = wlId ∧ r.user_id = u.id))).length ≠ 1)
        ∨ (err = "ON CONFLICT DO UPDATE command cannot affect row a second time"
            ∧ (st.db.workout_logs.filter
                (fun r => decide (r.id = wlId ∧ r.user_id = u.id))).length = 1
            ∧ ¬ ((updateScoreInputs u wlId logs).filterMap (fun x => x.id)).Nodup))
    ∧ (∀ (k : Nat) (e : String),
        (updateWorkoutLog (failAtEnv k e now) (some u) wlId w logs notes st).1 =
          Except.error e
        ∨ (updateWorkoutLog (failAtEnv k e now) (some u) wlId w logs notes st).1 =
          (updateWorkoutLog (noFaultEnv now) (some u) wlId w logs notes st).1)
    ∧ ((st.db.workout_logs.filter
          (fun r => decide (r.id = wlId ∧ r.user_id = u.id))).length ≠ 1 →
        (updateWorkoutLog (noFaultEnv now) (some u) wlId w logs notes st).1 =
          Except.error "JSON object requested, multiple (or no) rows returned")
    ∧ (∀ row : WorkoutLogRow,
        st.db.workout_logs.filter
          (fun r => decide (r.id = wlId ∧ r.user_id = u.id)) = [row] →
        ¬ ((updateScoreInputs u wlId logs).filterMap (fun x => x.id)).Nodup →
        (updateWorkoutLog (noFaultEnv now) (some u) wlId w logs notes st).1 =
          Except.error "ON CONFLICT DO UPDATE command cannot affect row a second time")
    ∧ (∀ row : WorkoutLogRow,
        st.db.workout_logs.filter
          (fun r => decide (r.id = wlId ∧ r.user_id = u.id)) = [row] →
        ((updateScoreInputs u wlId logs).filterMap (fun x => x.id)).Nodup →
        (updateWorkoutLog (noFaultEnv now) (some u) wlId w logs notes st).1 =
          Except.ok { id := row.id, user_id := row.user_id,
                      workout_id := row.workout_id, notes := notes,
                      score := calculateTotalScore logs w,
                      total := calculateTotalScore logs w,
                      completed_at := now }) :=
  ⟨fun env => logWorkout_logging_false env u w logs notes st,
   fun env => updateWorkoutLog_logging_false env u wlId w logs notes st,
   (logWorkout_noFault_ok u w logs notes st now).1,
   (logWorkout_noFault_ok u w logs notes st now).2,
   fun env err herr => logWorkout_error_from_fault env u w logs notes st err herr,
   fun k e hk1 hk2 => logWorkout_failAt u w logs notes st now k e hk1 hk2,
   fun env err herr => updateWorkoutLog_error_origin env u wlId w logs notes st err herr,
   fun k e => updateWorkoutLog_failAt_cases u wlId w logs notes st now k e,
   fun hns => updateWorkoutLog_noFault_nosingle u wlId w logs notes st now hns,
   fun row hrow hdup => updateWorkoutLog_noFault_dup u wlId w logs notes st now row
     hrow hdup,
   fun row hrow hnd => updateWorkoutLog_noFault_okval u wlId w logs notes st now row
     hrow hnd⟩

/-- Logs resubmitting the same persisted identifier twice, for the
duplicate-identifier rejection. -/
def demoLogsDup : List ExerciseLog :=
  [{ exercise_id := "ex",
     sets := [{ id := some 1, weight := some 10, reps := 2, distance := none,
                time := none, calories := none },
              { id := some 1, weight := some 20, reps := 3, distance := none,
                time := none, calories := none }] }]

/-- C7 witness: at concrete demo inputs the flag is reset, failing the first
store call of `logWorkout` fails the call with exactly that error, a
mismatched workout-log identifier makes the fault-free update fail with the
`.single()` error, and duplicate carried identifiers make it fail with the
upsert rejection. -/
theorem store_failures_propagate_witness :
    (logWorkout (noFaultEnv 3) (some demoUser) runScenarioWorkout demoLogs ""
      demoSt).2.logging = false
    ∧ (logWorkout (failAtEnv 0 "boom" 3) (some demoUser) runScenarioWorkout demoLogs ""
        demoSt).1 = Except.error "boom"
    ∧ (updateWorkoutLog (noFaultEnv 3) (some demoUser) 99 runScenarioWorkout demoLogs ""
        demoSt).1 = Except.error "JSON object requested, multiple (or no) rows returned"
    ∧ (updateWorkoutLog (noFaultEnv 3) (some demoUser) 1 runScenarioWorkout demoLogsDup ""
        demoSt).1 =
      Except.error "ON CONFLICT DO UPDATE command cannot affect row a second time" :=
  ⟨(store_failures_propagate_and_logging_resets demoUser 1 runScenarioWorkout demoLogs
      "" demoSt 3).1 (noFaultEnv 3),
   (store_failures_propagate_and_logging_resets demoUser 1 runScenarioWorkout demoLogs
      "" demoSt 3).2.2.2.2.2.1 0 "boom" (by decide) (by decide),
   (store_failures_propagate_and_logging_resets demoUser 99 runScenarioWorkout demoLogs
      "" demoSt 3).2.2.2.2.2.2.2.2.1 (by decide),
   (store_failures_propagate_and_logging_resets demoUser 1 runScenarioWorkout demoLogsDup
      "" demoSt 3).2.2.2.2.2.2.2.2.2.1 demoWorkoutLogRow (by decide) (by decide)⟩

/-- A fetched `exercise_scores` row as `ExerciseRecords` reads it. -/
structure ScoreFetched where
  id : Nat
  exercise_id : String
  workout_id : Option Nat
  created_at : Int
  weight : Option Int
  reps : Int
  distance : Option Int
  calories : Option Int
deriving DecidableEq

/-- An `exercises` catalog row. -/
structure ExerciseRow where
  id : String
  name : String
deriving DecidableEq

/-- A `workout_logs` row as fetched for workout type and dates. -/
structure WLInfo where
  id : Nat
  workout_type : Option String
  completed_at : Option Int
deriving DecidableEq

/-- A score enhanced with its exercise, workout type and display date, as
step 5 of `fetchExerciseRecords` builds it. -/
structure EnhancedScore where
  score : ScoreFetched
  exercise : Option ExerciseRow
  workout_type : String
  date : Int
deriving DecidableEq

/-- Steps 4-5 of `fetchExerciseRecords`: join the exercise by identifier,
join the workout info, and derive the display date
(`workout?.completed_at || score.created_at`). -/
def enhanceScore (exercises : List ExerciseRow) (winfo : List WLInfo)
    (s : ScoreFetched) : EnhancedScore :=
  let exercise := exercises.find? (fun ex => decide (ex.id = s.exercise_id))
  let workout := s.workout_id.bind (fun wid => winfo.find? (fun wi => decide (wi.id = wid)))
  { score := s, exercise := exercise,
    workout_type := (workout.bind (fun wi => wi.workout_type)).getD "",
    date := (workout.bind (fun wi => wi.completed_at)).getD s.created_at }

/-- The enhanced scores of the fetched rows, in fetch order. -/
def enhancedOf (scores : List ScoreFetched) (exercises : List ExerciseRow)
    (winfo : List WLInfo) : List EnhancedScore :=
  scores.map (enhanceScore exercises winfo)

/-- The exercise name the grouping step resolves for a score; `none` mirrors
`if (!score.exercise?.name) return;` (missing exercise or empty name). -/
def resolvedName (s : EnhancedScore) : Option String :=
  match s.exercise with
  | some ex => if ex.name = "" then none else some ex.name
  | none => none

/-- Append a score to its name's group, creating the group at the end when
the name is new (JS object insertion order). -/
def pushGroup : List (String × List EnhancedScore) → String → EnhancedScore →
    List (String × List EnhancedScore)
  | [], name, s => [(name, [s])]
  | (n, l) :: rest, name, s =>
    if n = name then (n, l ++ [s]) :: rest else (n, l) :: pushGroup rest name s

/-- Step 6 of `fetchExerciseRecords`: group the enhanced scores by resolved
exercise name, skipping scores with no resolvable name. -/
def groupByName (l : List EnhancedScore) : List (String × List EnhancedScore) :=
  l.foldl (fun groups s =>
    match resolvedName s with
    | none => groups
    | some n => pushGroup groups n s) []

/-- The `Run` selection key: highest distance, absent counting as zero. -/
def distanceKey (s : EnhancedScore) : Int := s.score.distance.getD 0

/-- The `Assault Bike` selection key: highest calories. -/
def caloriesKey (s : EnhancedScore) : Int := s.score.calories.getD 0

/-- The default selection key: heaviest weight. -/
def weightKey (s : EnhancedScore) : Int := s.score.weight.getD 0

/-- One group's reduce of step 7: keep the current record only when its key
is strictly greater, starting from the group's first element. -/
def selectBest (key : EnhancedScore → Int) (scores : List EnhancedScore) :
    Option EnhancedScore :=
  match scores with
  | [] => none
  | s0 :: _ =>
    some (scores.foldl (fun best current =>
      if key best < key current then current else best) s0)

/-- Step 7 of `fetchExerciseRecords`: the best score of each group, keyed by
the group's exercise name. -/
def bestScoresOf (groups : List (String × List EnhancedScore)) :
    List EnhancedScore :=
  groups.filterMap (fun g =>
    if g.1 = "Run" then selectBest distanceKey g.2
    else if g.1 = "Assault Bike" then selectBest caloriesKey g.2
    else selectBest weightKey g.2)

/-- Date ordering of the display sort: `a` may precede `b` when `b`'s date
is no later than `a`'s (newest first). -/
def dateGE (a b : EnhancedScore) : Prop := b.date ≤ a.date

instance : DecidableRel dateGE :=
  fun a b => inferInstanceAs (Decidable (b.date ≤ a.date))

instance : IsTotal EnhancedScore dateGE :=
  ⟨fun a b => le_total b.date a.date⟩

instance : IsTrans EnhancedScore dateGE :=
  ⟨fun a b c hab hbc => le_trans hbc hab⟩

/-- Step 8 of `fetchExerciseRecords`: stable sort by date, newest first,
keeping the top five. -/
def topRecords (l : List EnhancedScore) : List EnhancedScore :=
  (List.insertionSort dateGE l).take 5

/-- The pure transformation of `fetchExerciseRecords`, from the fetched rows
to the displayed record list. -/
def fetchExerciseRecords (scores : List ScoreFetched) (exercises : List ExerciseRow)
    (winfo : List WLInfo) : List EnhancedScore :=
  if scores.isEmpty then []
  else topRecords (bestScoresOf (groupByName (enhancedOf scores exercises winfo)))

/-- The selection key the claim assigns to a group name. -/
def recordKey (n : String) (s : EnhancedScore) : Int :=
  if n = "Run" then distanceKey s
  else if n = "Assault Bike" then caloriesKey s
  else weightKey s

/-- The scores resolving to a given exercise name, in fetch order. -/
def groupList (scores : List ScoreFetched) (exercises : List ExerciseRow)
    (winfo : List WLInfo) (n : String) : List EnhancedScore :=
  (enhancedOf scores exercises winfo).filter (fun s => decide (resolvedName s = some n))

/-- Look up a group by name in the association list of groups. -/
def lookupG (groups : List (String × List EnhancedScore)) (n : String) :
    Option (List EnhancedScore) :=
  (groups.find? (fun g => decide (g.1 = n))).map (fun g => g.2)

/-- The names of the groups, in insertion order. -/
def keysOf (groups : List (String × List EnhancedScore)) : List String :=
  groups.map (fun g => g.1)

lemma keysOf_pushGroup (n : String) (s : EnhancedScore) :
    ∀ groups, keysOf (pushGroup groups n s) =
      if n ∈ keysOf groups then keysOf groups else keysOf groups ++ [n] := by
  intro groups
  induction groups with
  | nil => simp [pushGroup, keysOf]
  | cons g rest ih =>
    rcases g with ⟨m, l⟩
    by_cases hmn : m = n
    · simp [pushGroup, keysOf, hmn]
    · have hnm : ¬ n = m := fun habs => hmn habs.symm
      simp only [pushGroup, if_neg hmn, keysOf, List.map_cons]
      by_cases hmem : n ∈ List.map (fun g => g.1) rest
      · rw [if_pos (List.mem_cons_of_mem _ hmem)]
        have := ih
        rw [keysOf, keysOf, if_pos (by simpa [keysOf] using hmem)] at this
        simpa [keysOf] using congrArg (List.cons m) this
      · have h1 : ¬ n ∈ (m :: List.map (fun g => g.1) rest) := by
          intro habs
          rcases List.mem_cons.mp habs with h2 | h2
          · exact hnm h2
          · exact hmem h2
        rw [if_neg h1]
        have := ih
        rw [keysOf, keysOf, if_neg (by simpa [keysOf] using hmem)] at this
        simpa [keysOf] using congrArg (List.cons m) this

lemma keysOf_nodup_pushGroup (n : String) (s : EnhancedScore)
    (groups : List (String × List EnhancedScore))
    (hnd : (keysOf groups).Nodup) : (keysOf (pushGroup groups n s)).Nodup := by
  rw [keysOf_pushGroup]
  by_cases hmem : n ∈ keysOf groups
  · rw [if_pos hmem]
    exact hnd
  · rw [if_neg hmem]
    refine List.Nodup.append hnd (List.nodup_singleton _) ?_
    intro a ha hb
    have : a = n := List.mem_singleton.mp hb
    exact hmem (this ▸ ha)

lemma groupByName_keys_nodup (l : List EnhancedScore) :
    (keysOf (groupByName l)).Nodup := by
  have main : ∀ acc : List (String × List EnhancedScore), (keysOf acc).Nodup →
      (keysOf (l.foldl (fun groups s =>
        match resolvedName s with
        | none => groups
        | some n => pushGroup groups n s) acc)).Nodup := by
    induction l with
    | nil => intro acc h; exact h
    | cons x xs ih =>
      intro acc h
      simp only [List.foldl_cons]
      rcases hx : resolvedName x with _ | nx
      · exact ih acc h
      · exact ih _ (keysOf_nodup_pushGroup nx x acc h)
  exact main [] (by simp [keysOf])

lemma lookupG_mem (groups : List (String × List EnhancedScore)) (n : String)
    (g : List EnhancedScore) (h : lookupG groups n = some g) : (n, g) ∈ groups := by
  induction groups with
  | nil => simp [lookupG] at h
  | cons p rest ih =>
    rcases p with ⟨m, l⟩
    by_cases hmn : m = n
    · subst hmn
      simp [lookupG, List.find?_cons] at h
      subst h
      exact List.mem_cons_self _ _
    · have : lookupG rest n = some g := by
        simpa [lookupG, List.find?_cons, hmn] using h
      exact List.mem_cons_of_mem _ (ih this)

lemma lookupG_eq_of_mem (groups : List (String × List EnhancedScore)) (n : String)
    (g : List EnhancedScore) (hnd : (keysOf groups).Nodup) (h : (n, g) ∈ groups) :
    lookupG groups n = some g := by
  induction groups with
  | nil => simp at h
  | cons p rest ih =>
    rcases p with ⟨m, l⟩
    have hnd2 : (m :: keysOf rest).Nodup := by simpa [keysOf] using hnd
    rcases List.mem_cons.mp h with h1 | h1
    · rw [show m = n from (Prod.mk.injEq _ _ _ _).mp h1.symm |>.1,
        show l = g from (Prod.mk.injEq _ _ _ _).mp h1.symm |>.2]
      simp [lookupG, List.find?_cons]
    · have hne : ¬ m = n := by
        intro habs
        subst habs
        exact (List.nodup_cons.mp hnd2).1 (by
          simpa [keysOf] using List.mem_map_of_mem (fun x => x.1) h1)
      have := ih (List.nodup_cons.mp hnd2).2 h1
      simpa [lookupG, List.find?_cons, hne] using this

lemma lookupG_pushGroup (n m : String) (s : EnhancedScore) :
    ∀ groups, lookupG (pushGroup groups n s) m =
      if m = n then some ((lookupG groups n).getD [] ++ [s]) else lookupG groups m := by
  intro groups
  induction groups with
  | nil =>
    by_cases hmn : m = n
    · simp [pushGroup, lookupG, List.find?_cons, hmn]
    · have : ¬ n = m := fun habs => hmn habs.symm
      simp [pushGroup, lookupG, List.find?_cons, this, hmn]
  | cons p rest ih =>
    rcases p with ⟨q, l⟩
    by_cases hqn : q = n
    · subst hqn
      by_cases hmq : m = q
      · subst hmq
        simp [pushGroup, lookupG, List.find?_cons]
      · have hqm : ¬ q = m := fun habs => hmq habs.symm
        simp [pushGroup, lookupG, List.find?_cons, hqm, hmq]
    · by_cases hmq : m = q
      · subst hmq
        simp [pushGroup, lookupG, List.find?_cons, hqn]
      · have hqm : ¬ q = m := fun habs => hmq habs.symm
        have := ih
        by_cases hmn : m = n
        · subst hmn
          rw [if_pos rfl] at this
          simp only [pushGroup, if_neg hqn]
          simpa [lookupG, List.find?_cons, hqm] using this
        · rw [if_neg hmn] at this
          simp only [pushGroup, if_neg hqn]
          simpa [lookupG, List.find?_cons, hqm, hmn] using this

lemma groupFold_lookup (l : List EnhancedScore) :
    ∀ (acc : List (String × List EnhancedScore)) (n : String),
      lookupG (l.foldl (fun groups s =>
        match resolvedName s with
        | none => groups
        | some nx => pushGroup groups nx s) acc) n =
      match lookupG acc n with
      | some g => some (g ++ l.filter (fun s => decide (resolvedName s = some n)))
      | none =>
        if l.filter (fun s => decide (resolvedName s = some n)) = [] then none
        else some (l.filter (fun s => decide (resolvedName s = some n))) := by
  induction l with
  | nil =>
    intro acc n
    rcases h : lookupG acc n with _ | g <;> simp [h]
  | cons x xs ih =>
    intro acc n
    simp only [List.foldl_cons]
    rcases hx : resolvedName x with _ | nx
    · have hxp : (decide (resolvedName x = some n)) = false := by simp [hx]
      simp only [hx]
      rw [ih acc n]
      simp only [List.filter_cons, hxp]
      rfl
    · simp only [hx]
      rw [ih (pushGroup acc nx x) n, lookupG_pushGroup]
      by_cases hnn : n = nx
      · subst hnn
        have hxp : (decide (resolvedName x = some n)) = true := by simp [hx]
        rw [if_pos rfl]
        simp only [List.filter_cons, hxp, if_pos rfl]
        rcases h : lookupG acc n with _ | g
        · simp
        · simp
      · have hxp : (decide (resolvedName x = some n)) = false := by
          simp only [decide_eq_false_iff_not, hx]
          intro habs
          exact hnn (Option.some.injEq _ _ ▸ habs.symm ▸ rfl)
        rw [if_neg hnn]
        simp only [List.filter_cons, hxp]
        rfl

lemma groupByName_lookup (l : List EnhancedScore) (n : String) :
    lookupG (groupByName l) n =
      if l.filter (fun s => decide (resolvedName s = some n)) = [] then none
      else some (l.filter (fun s => decide (resolvedName s = some n))) := by
  have := groupFold_lookup l [] n
  rw [groupByName]
  rw [this]
  rfl

lemma foldBest_spec (key : EnhancedScore → Int) :
    ∀ (l : List EnhancedScore) (b0 : EnhancedScore),
      ∃ i, (b0 :: l).get? i = some (l.foldl (fun best current =>
          if key best < key current then current else best) b0)
        ∧ (∀ x ∈ (b0 :: l).take i, key x < key (l.foldl (fun best current =>
            if key best < key current then current else best) b0))
        ∧ (∀ x ∈ b0 :: l, key x ≤ key (l.foldl (fun best current =>
            if key best < key current then current else best) b0)) := by
  intro l
  induction l with
  | nil =>
    intro b0
    refine ⟨0, rfl, by simp, ?_⟩
    intro x hx
    have : x = b0 := by simpa using hx
    simp [this]
  | cons c cs ih =>
    intro b0
    by_cases hc : key b0 < key c
    · obtain ⟨i, hget, hpre, hall⟩ := ih c
      have hcF : key c ≤ key (cs.foldl (fun best current =>
          if key best < key current then current else best) c) :=
        hall c (List.mem_cons_self _ _)
      refine ⟨i + 1, ?_, ?_, ?_⟩
      · simpa [List.foldl_cons, if_pos hc] using hget
      · intro x hx
        simp only [List.foldl_cons, if_pos hc]
        rw [List.take_succ_cons] at hx
        rcases List.mem_cons.mp hx with rfl | hx2
        · exact lt_of_lt_of_le hc hcF
        · exact hpre x hx2
      · intro x hx
        simp only [List.foldl_cons, if_pos hc]
        rcases List.mem_cons.mp hx with rfl | hx2
        · exact le_of_lt (lt_of_lt_of_le hc hcF)
        · exact hall x hx2
    · obtain ⟨i, hget, hpre, hall⟩ := ih b0
      have hcb : key c ≤ key b0 := not_lt.mp hc
      have hb0F : key b0 ≤ key (cs.foldl (fun best current =>
          if key best < key current then current else best) b0) :=
        hall b0 (List.mem_cons_self _ _)
      rcases i with _ | j
      · refine ⟨0, ?_, by simp, ?_⟩
        · simpa [List.foldl_cons, if_neg hc] using hget
        · intro x hx
          simp only [List.foldl_cons, if_neg hc]
          rcases List.mem_cons.mp hx with rfl | hx2
          · exact hall x (List.mem_cons_self _ _)
          · rcases List.mem_cons.mp hx2 with rfl | hx3
            · exact le_trans hcb hb0F
            · exact hall x (List.mem_cons_of_mem _ hx3)
      · refine ⟨j + 2, ?_, ?_, ?_⟩
        · simpa [List.foldl_cons, if_neg hc] using hget
        · intro x hx
          simp only [List.foldl_cons, if_neg hc]
          rw [List.take_succ_cons, List.take_succ_cons] at hx
          rcases List.mem_cons.mp hx with rfl | hx2
          · exact hpre x (by
              rw [List.take_succ_cons]
              exact List.mem_cons_self _ _)
          · rcases List.mem_cons.mp hx2 with rfl | hx3
            · exact lt_of_le_of_lt hcb (hpre b0 (by
                rw [List.take_succ_cons]
                exact List.mem_cons_self _ _))
            · exact hpre x (by
                rw [List.take_succ_cons]
                exact List.mem_cons_of_mem _ hx3)
        · intro x hx
          simp only [List.foldl_cons, if_neg hc]
          rcases List.mem_cons.mp hx with rfl | hx2
          · exact hall x (List.mem_cons_self _ _)
          · rcases List.mem_cons.mp hx2 with rfl | hx3
            · exact le_trans hcb hb0F
            · exact hall x (List.mem_cons_of_mem _ hx3)

lemma selectBest_spec (key : EnhancedScore → Int) (l : List EnhancedScore)
    (b : EnhancedScore) (h : selectBest key l = some b) :
    ∃ i, l.get? i = some b ∧ (∀ x ∈ l.take i, key x < key b)
      ∧ ∀ x ∈ l, key x ≤ key b := by
  rcases l with _ | ⟨s0, tl⟩
  · simp [selectBest] at h
  · rw [selectBest] at h
    injection h with h2
    have hfirst : (s0 :: tl).foldl (fun best current =>
        if key best < key current then current else best) s0 =
        tl.foldl (fun best current =>
          if key best < key current then current else best) s0 := by
      simp [List.foldl_cons, lt_irrefl]
    rw [hfirst] at h2
    obtain ⟨i, hget, hpre, hall⟩ := foldBest_spec key tl s0
    rw [h2] at hget hpre hall
    exact ⟨i, hget, hpre, hall⟩

lemma branchSelect_eq (n : String) (g : List EnhancedScore) :
    (if n = "Run" then selectBest distanceKey g
     else if n = "Assault Bike" then selectBest caloriesKey g
     else selectBest weightKey g) = selectBest (recordKey n) g := by
  by_cases h1 : n = "Run"
  · subst h1
    rw [if_pos rfl]
    have h : recordKey "Run" = distanceKey := by
      funext s
      rw [recordKey, if_pos rfl]
    rw [h]
  · by_cases h2 : n = "Assault Bike"
    · subst h2
      rw [if_neg h1, if_pos rfl]
      have h : recordKey "Assault Bike" = caloriesKey := by
        funext s
        rw [recordKey, if_neg h1, if_pos rfl]
      rw [h]
    · rw [if_neg h1, if_neg h2]
      have h : recordKey n = weightKey := by
        funext s
        rw [recordKey, if_neg h1, if_neg h2]
      rw [h]

lemma bestScores_characterised (scores : List ScoreFetched)
    (exercises : List ExerciseRow) (winfo : List WLInfo) :
    ∀ r ∈ bestScoresOf (groupByName (enhancedOf scores exercises winfo)),
      ∃ n, resolvedName r = some n ∧
      ∃ i, (groupList scores exercises winfo n).get? i = some r
        ∧ (∀ x ∈ (groupList scores exercises winfo n).take i,
            recordKey n x < recordKey n r)
        ∧ (∀ x ∈ groupList scores exercises winfo n, recordKey n x ≤ recordKey n r) := by
  intro r hr
  rcases List.mem_filterMap.mp hr with ⟨⟨n, g⟩, hg, hsel⟩
  simp only at hsel
  rw [branchSelect_eq] at hsel
  have hlook := lookupG_eq_of_mem _ n g (groupByName_keys_nodup _) hg
  rw [groupByName_lookup] at hlook
  by_cases hnil : (enhancedOf scores exercises winfo).filter
      (fun s => decide (resolvedName s = some n)) = []
  · rw [if_pos hnil] at hlook
    exact Option.noConfusion hlook
  · rw [if_neg hnil] at hlook
    injection hlook with hlook2
    subst hlook2
    obtain ⟨i, hget, hpre, hall⟩ := selectBest_spec (recordKey n) _ r hsel
    have hrmem : r ∈ (enhancedOf scores exercises winfo).filter
        (fun s => decide (resolvedName s = some n)) := List.get?_mem hget
    have hres : resolvedName r = some n := by
      have := (List.mem_filter.mp hrmem).2
      simpa using this
    exact ⟨n, hres, i, hget, hpre, hall⟩

/-- C10: `fetchExerciseRecords` displays at most five records, ordered by
date newest first; every displayed record has a resolvable exercise name and
is, within the group of scores resolving to that name, the earliest record
attaining the group's maximal key (distance for `Run`, calories for
`Assault Bike`, weight otherwise, absent values counting as zero); and every
non-empty group contributes exactly such a record to the pre-truncation
selection. -/
theorem fetchExerciseRecords_spec (scores : List ScoreFetched)
    (exercises : List ExerciseRow) (winfo : List WLInfo) :
    (fetchExerciseRecords scores exercises winfo).length ≤ 5
    ∧ List.Sorted dateGE (fetchExerciseRecords scores exercises winfo)
    ∧ (∀ r ∈ fetchExerciseRecords scores exercises winfo,
        ∃ n, resolvedName r = some n ∧
        ∃ i, (groupList scores exercises winfo n).get? i = some r
          ∧ (∀ x ∈ (groupList scores exercises winfo n).take i,
              recordKey n x < recordKey n r)
          ∧ (∀ x ∈ groupList scores exercises winfo n, recordKey n x ≤ recordKey n r))
    ∧ (∀ n, groupList scores exercises winfo n ≠ [] →
        ∃ b ∈ bestScoresOf (groupByName (enhancedOf scores exercises winfo)),
          ∃ i, (groupList scores exercises winfo n).get? i = some b
            ∧ (∀ x ∈ (groupList scores exercises winfo n).take i,
                recordKey n x < recordKey n b)
            ∧ (∀ x ∈ groupList scores exercises winfo n,
                recordKey n x ≤ recordKey n b)) := by
  refine ⟨?_, ?_, ?_, ?_⟩
  · by_cases h : scores.isEmpty
    · simp [fetchExerciseRecords, h]
    · rw [fetchExerciseRecords, if_neg h]
      exact List.length_take_le _ _
  · by_cases h : scores.isEmpty
    · simp [fetchExerciseRecords, h]
    · rw [fetchExerciseRecords, if_neg h]
      exact List.Pairwise.sublist (List.take_sublist _ _)
        (List.sorted_insertionSort dateGE _)
  · intro r hr
    by_cases h : scores.isEmpty
    · rw [fetchExerciseRecords, if_pos h] at hr
      simp at hr
    · rw [fetchExerciseRecords, if_neg h] at hr
      have hr2 : r ∈ List.insertionSort dateGE
          (bestScoresOf (groupByName (enhancedOf scores exercises winfo))) :=
        (List.take_sublist _ _).subset hr
      have hr3 : r ∈ bestScoresOf (groupByName (enhancedOf scores exercises winfo)) :=
        (List.perm_insertionSort dateGE _).subset hr2
      exact bestScores_characterised scores exercises winfo r hr3
  · intro n hne
    have hlook := groupByName_lookup (enhancedOf scores exercises winfo) n
    have hne2 : ¬ ((enhancedOf scores exercises winfo).filter
        (fun s => decide (resolvedName s = some n)) = []) := hne
    rw [if_neg hne2] at hlook
    have hg := lookupG_mem _ _ _ hlook
    rcases hsel : selectBest (recordKey n) (groupList scores exercises winfo n)
      with _ | b
    · rcases hL : groupList scores exercises winfo n with _ | ⟨s0, tl⟩
      · exact absurd hL hne
      · rw [hL] at hsel
        simp [selectBest] at hsel
    · obtain ⟨i, hget, hpre, hall⟩ := selectBest_spec _ _ _ hsel
      refine ⟨b, List.mem_filterMap.mpr ⟨(n, groupList scores exercises winfo n),
        hg, ?_⟩, i, hget, hpre, hall⟩
      simp only
      rw [branchSelect_eq]
      exact hsel

/-- Two fetched demo scores of the same exercise. -/
def demoScores : List ScoreFetched :=
  [{ id := 1, exercise_id := "e1", workout_id := none, created_at := 10,
     weight := some 100, reps := 5, distance := none, calories := none },
   { id := 2, exercise_id := "e1", workout_id := none, created_at := 20,
     weight := some 50, reps := 3, distance := none, calories := none }]

/-- The demo exercise catalog. -/
def demoExercises : List ExerciseRow := [{ id := "e1", name := "Bench Press" }]

/-- C10 witness: the non-empty `Bench Press` group contributes its earliest
maximal-weight record to the selection at the concrete demo inputs. -/
theorem fetchExerciseRecords_spec_witness :
    ∃ b ∈ bestScoresOf (groupByName (enhancedOf demoScores demoExercises [])),
      ∃ i, (groupList demoScores demoExercises [] "Bench Press").get? i = some b
        ∧ (∀ x ∈ (groupList demoScores demoExercises [] "Bench Press").take i,
            recordKey "Bench Press" x < recordKey "Bench Press" b)
        ∧ (∀ x ∈ groupList demoScores demoExercises [] "Bench Press",
            recordKey "Bench Press" x ≤ recordKey "Bench Press" b) :=
  (fetchExerciseRecords_spec demoScores demoExercises []).2.2.2 "Bench Press" (by decide)
